import Mathlib

/-!
# Verification of the adsim simulation engine

Shallow embedding of the core simulation engine of the `adsim` package
(`packages/sim/src/adsim/`): the seeded RNG wrapper (`rng.py`), keyword
matching (`matching.py`), the auction (`auction.py`), the click/conversion
model (`clicks.py`), simulation state (`state.py`) and the day engine
(`engine.py`).  Python floats are modelled as rationals (`ℚ`), Python
dicts as association lists with first-match lookup and prepend-overwrite
insertion, and Python `None`-able values as `Option`.

The Python standard-library pieces that the engine calls but that are not
part of the repository (the Mersenne Twister behind `random.Random`, and
`math.exp`) are modelled by concrete pure stand-ins: a deterministic
integer state machine for the generator and a strictly positive rational
function for `exp`.  Every property proved below is independent of the
particular values these stand-ins produce; they only need to be pure and,
for `exp`, strictly positive, which both model faithfully.
-/

namespace Adsim

/-! ## Dict model: Python `dict` as an association list.
Lookup finds the first (most recent) binding; insertion prepends after
dropping any older binding, so the last write wins as in Python. -/

def dictGet {α β : Type} [BEq α] (d : List (α × β)) (k : α) : Option β :=
  (d.find? (fun kv => kv.1 == k)).map (fun kv => kv.2)

def dictSet {α β : Type} [BEq α] (d : List (α × β)) (k : α) (v : β) : List (α × β) :=
  (k, v) :: d.filter (fun kv => kv.1 != k)

/-! ## RNG (`rng.py`)

`SeededRNG` wraps Python's `random.Random(seed)`.  The Mersenne Twister
itself lives in the Python standard library, outside this repository; per
the spec (§4.1: "a well-specified PRNG (Mersenne Twister or equivalent)")
we model it as a concrete deterministic state machine on `Nat`.  All
theorems below hold for any pure generator. -/

structure PyRandom where
  state : Nat
deriving DecidableEq, Repr

/-- Model of `random.Random(seed)` state initialisation. -/
def PyRandom.ofSeed (seed : Int) : PyRandom :=
  ⟨(seed.natAbs * 2862933555777941757 + 3037000493) % 2 ^ 64⟩

/-- One raw generator step: a 31-bit output word and the next state. -/
def PyRandom.step (g : PyRandom) : Nat × PyRandom :=
  let s := (g.state * 6364136223846793005 + 1442695040888963407) % 2 ^ 64
  ((s / 2 ^ 33) % 2 ^ 31, ⟨s⟩)

/-- `SeededRNG` (rng.py): a seed plus the internal generator state. -/
structure SeededRNG where
  seed : Int
  gen : PyRandom
deriving DecidableEq, Repr

/-- `SeededRNG(seed)`: `__post_init__` seeds the internal generator. -/
def SeededRNG.ofSeed (seed : Int) : SeededRNG :=
  ⟨seed, PyRandom.ofSeed seed⟩

/-- `random()`: a float in [0, 1). -/
def SeededRNG.random (r : SeededRNG) : ℚ × SeededRNG :=
  let (k, g) := r.gen.step
  ((k : ℚ) / 2 ^ 31, ⟨r.seed, g⟩)

/-- `uniform(a, b) = a + (b - a) * random()`. -/
def SeededRNG.uniform (r : SeededRNG) (a b : ℚ) : ℚ × SeededRNG :=
  let (u, r') := r.random
  (a + (b - a) * u, r')

/-- `randint(a, b)`: integer in [a, b]; modelled by reducing one raw
generator word modulo the size of the range. -/
def SeededRNG.randint (r : SeededRNG) (a b : Int) : Int × SeededRNG :=
  let (k, g) := r.gen.step
  (a + Int.ofNat (k % ((b - a + 1).toNat.max 1)), ⟨r.seed, g⟩)

/-- `noise(base, variance) = base * (1 + uniform(-variance, variance))`. -/
def SeededRNG.noise (r : SeededRNG) (base : ℚ) (variance : ℚ) : ℚ × SeededRNG :=
  let (n, r') := r.uniform (-variance) variance
  (base * (1 + n), r')

/-- `bernoulli(p) = random() < p`. -/
def SeededRNG.bernoulli (r : SeededRNG) (p : ℚ) : Bool × SeededRNG :=
  let (u, r') := r.random
  (decide (u < p), r')

/-- First index whose weight bucket contains `r`, clamped to the last
index as `random.choices` does via `bisect(..., hi = len - 1)`. -/
def choiceIndex (weights : List ℚ) (r : ℚ) : Nat :=
  go weights r 0
where
  go : List ℚ → ℚ → Nat → Nat
    | [], _, i => i - 1
    | [_], _, i => i
    | w :: ws, r, i => if r < w then i else go ws (r - w) (i + 1)

/-- `choices(range(len(weights)), weights)[0]`: one weighted draw,
returning an index into the weight list. -/
def SeededRNG.choicesIdx (r : SeededRNG) (weights : List ℚ) : Nat × SeededRNG :=
  let (u, r') := r.random
  (choiceIndex weights (u * weights.sum), r')

/-- `create_day_rng(base_seed, day)`: day-specific RNG seeded with
`base_seed * 1000000 + day`. -/
def create_day_rng (base_seed : Int) (day : Nat) : SeededRNG :=
  SeededRNG.ofSeed (base_seed * 1000000 + day)

/-! ## Matching (`matching.py`) -/

inductive MatchType where
  | exact
  | phrase
  | broad
deriving DecidableEq, Repr

structure MatchResult where
  matched : Bool
  match_type : Option MatchType
  match_reason : String
  match_score : ℚ := 1
  blocked_by_negative : Bool := false
  blocking_negative : Option String := none
deriving DecidableEq, Repr

structure NegativeKeyword where
  text : String
  match_type : MatchType
deriving DecidableEq, Repr

/-- Characters kept by the normalisation regex `[^\w\s]` → removed:
word characters (alphanumeric or underscore) and whitespace survive. -/
def pyWordChar (c : Char) : Bool :=
  c.isAlphanum || c == '_'

/-- Whitespace splitter: groups maximal runs of non-space characters. -/
def splitWords : List Char → List Char → List (List Char)
  | [], acc => if acc.isEmpty then [] else [acc.reverse]
  | c :: cs, acc =>
    if c.isWhitespace then
      if acc.isEmpty then splitWords cs [] else acc.reverse :: splitWords cs []
    else splitWords cs (c :: acc)

/-- `tokenize(text)`: lowercase, strip non-alphanumeric (keeping
whitespace), split on whitespace, drop empties. -/
def tokenize (text : String) : List String :=
  let kept := (text.toList.map Char.toLower).filter (fun c => pyWordChar c || c.isWhitespace)
  (splitWords kept []).map (fun cs => String.mk cs)

/-- `normalize_keyword(keyword)`. -/
def normalize_keyword (keyword : String) : String :=
  String.intercalate " " (tokenize keyword)

/-- `exact_match`: token lists must be identical. -/
def exact_match (keyword_tokens query_tokens : List String) : Bool :=
  keyword_tokens == query_tokens

/-- `phrase_match`: keyword tokens appear as a contiguous ordered
subsequence of the query tokens. -/
def phrase_match (keyword_tokens query_tokens : List String) : Bool :=
  if keyword_tokens.isEmpty then false
  else if query_tokens.length < keyword_tokens.length then false
  else
    (List.range (query_tokens.length - keyword_tokens.length + 1)).any
      (fun i => (query_tokens.drop i).take keyword_tokens.length == keyword_tokens)

/-- The fixed in-memory synonym table `SYNONYMS`. -/
def SYNONYMS : List (String × List String) :=
  [("buy", ["purchase", "get", "acquire", "order"]),
   ("cheap", ["affordable", "low cost", "budget", "inexpensive"]),
   ("best", ["top", "premier", "leading", "excellent"]),
   ("near", ["nearby", "close to", "around", "local"]),
   ("rent", ["lease", "hire", "rental"]),
   ("apartment", ["flat", "unit", "condo"]),
   ("villa", ["house", "home", "property"]),
   ("service", ["services", "help", "assistance"]),
   ("repair", ["fix", "fixing", "maintenance"]),
   ("cleaning", ["clean", "cleaner", "housekeeping"]),
   ("ac", ["air conditioning", "air conditioner", "hvac"]),
   ("plumber", ["plumbing", "plumbers"]),
   ("electrician", ["electrical", "electric"]),
   ("dubai", ["dxb"]),
   ("abu dhabi", ["abudhabi", "ad"]),
   ("uae", ["emirates", "united arab emirates"]),
   ("price", ["cost", "pricing", "rate", "rates"]),
   ("discount", ["sale", "offer", "deal", "deals"]),
   ("shop", ["store", "shopping", "buy"]),
   ("delivery", ["shipping", "deliver"]),
   ("online", ["web", "internet", "digital"])]

/-- `get_synonyms(word)`: the word itself, its table entry, and the full
synonym class of every entry whose list contains the word.  The Python
function returns a set; only membership is ever consulted, so a list with
the same members is an equivalent model. -/
def get_synonyms (word : String) : List String :=
  let viaKey := (SYNONYMS.filter (fun kv => kv.1 == word)).foldr (fun kv acc => kv.2 ++ acc) []
  let viaValue := (SYNONYMS.filter (fun kv => kv.2.contains word)).foldr
    (fun kv acc => kv.1 :: kv.2 ++ acc) []
  word :: (viaKey ++ viaValue)

/-- `compute_broad_match_score`: 0.6·topic_overlap + 0.25·synonym_hit +
0.15·context_fit.  The numeric breakdown embedded in the Python reason
string is elided; the tag is kept. -/
def compute_broad_match_score (keyword_tokens query_tokens : List String) : ℚ × String :=
  if keyword_tokens.isEmpty || query_tokens.isEmpty then (0, "empty_input")
  else
    let direct_matches := (keyword_tokens.filter (fun t => query_tokens.contains t)).length
    let synonym_matches := (keyword_tokens.filter (fun t =>
      !query_tokens.contains t && (get_synonyms t).any (fun s => query_tokens.contains s))).length
    let topic_overlap := ((direct_matches : ℚ) + (8 : ℚ)/10 * synonym_matches) / keyword_tokens.length
    let synonym_hit := (synonym_matches : ℚ) / keyword_tokens.length
    let context_fit := (min query_tokens.length keyword_tokens.length : ℚ) /
      (max query_tokens.length keyword_tokens.length : ℚ)
    let score := (6 : ℚ)/10 * topic_overlap + (25 : ℚ)/100 * synonym_hit + (15 : ℚ)/100 * context_fit
    (score, "topic_synonym_context")

/-- `broad_match`: threshold 0.58 in learning phase, 0.62 stable. -/
def broad_match (keyword_tokens query_tokens : List String) (learning_state : Bool) :
    Bool × ℚ × String :=
  let threshold : ℚ := if learning_state then 58/100 else 62/100
  let (score, reason) := compute_broad_match_score keyword_tokens query_tokens
  (decide (threshold ≤ score), score, reason)

/-- One negative's blocking test (loop body of `check_negative_block`). -/
def negativeBlocks (query_tokens : List String) (neg : NegativeKeyword) : Bool :=
  let neg_tokens := tokenize neg.text
  match neg.match_type with
  | .exact => exact_match neg_tokens query_tokens
  | .phrase => phrase_match neg_tokens query_tokens
  | .broad => neg_tokens.any (fun t =>
      query_tokens.contains t || (get_synonyms t).any (fun s => query_tokens.contains s))

/-- `check_negative_block`: first blocking negative wins.  Both arms of
the Python `neg_quality` branch return the same blocked result (the
reference behaviour blocks deterministically), so the factor is carried
but unused. -/
def check_negative_block (query_tokens : List String) (negatives : List NegativeKeyword)
    (neg_quality : ℚ) : Bool × Option String :=
  match negatives with
  | [] => (false, none)
  | neg :: rest =>
    if negativeBlocks query_tokens neg then (true, some neg.text)
    else check_negative_block query_tokens rest neg_quality

/-- The match-type dispatch of `match_keyword` (its `if/elif` chain on
the match type): the positive-match flag, score and reason. -/
def positiveStep (keyword_tokens query_tokens : List String) (match_type : MatchType)
    (learning_state : Bool) : Bool × ℚ × String :=
  match match_type with
  | .exact =>
    let m := exact_match keyword_tokens query_tokens
    (m, 1, if m then "exact_match" else "no_exact_match")
  | .phrase =>
    let m := phrase_match keyword_tokens query_tokens
    (m, 1, if m then "phrase_match" else "no_phrase_match")
  | .broad => broad_match keyword_tokens query_tokens learning_state

/-- `match_keyword`: positive match by match type, then negatives. -/
def match_keyword (keyword query : String) (match_type : MatchType)
    (negatives : List NegativeKeyword := []) (learning_state : Bool := false)
    (neg_quality : ℚ := 1) : MatchResult :=
  let keyword_tokens := tokenize keyword
  let query_tokens := tokenize query
  let step := positiveStep keyword_tokens query_tokens match_type learning_state
  let matched := step.1
  let match_score := step.2.1
  let match_reason := step.2.2
  if !matched then
    { matched := false, match_type := none, match_reason := match_reason, match_score := 0 }
  else if !negatives.isEmpty then
    match check_negative_block query_tokens negatives neg_quality with
    | (true, blocking_neg) =>
      { matched := false, match_type := some match_type,
        match_reason := "blocked_by_negative: " ++ blocking_neg.getD "",
        match_score := match_score, blocked_by_negative := true,
        blocking_negative := blocking_neg }
    | (false, _) =>
      { matched := true, match_type := some match_type, match_reason := match_reason,
        match_score := match_score }
  else
    { matched := true, match_type := some match_type, match_reason := match_reason,
      match_score := match_score }

/-! ## Auction (`auction.py`) -/

structure AuctionEntry where
  advertiser_id : String
  keyword_id : String
  ad_id : String
  bid : ℚ
  quality_score : ℚ
  context_factor : ℚ := 1
  format_factor : ℚ := 1
deriving DecidableEq, Repr

/-- `ad_rank = bid * quality_score * context_factor * format_factor`. -/
def AuctionEntry.ad_rank (e : AuctionEntry) : ℚ :=
  e.bid * e.quality_score * e.context_factor * e.format_factor

structure AuctionPosition where
  advertiser_id : String
  keyword_id : String
  ad_id : String
  position : Nat
  ad_rank : ℚ
  cpc : ℚ
  won_auction : Bool
  loss_reason : Option String := none
deriving DecidableEq, Repr

structure AuctionResult where
  query : String
  positions : List AuctionPosition
  total_eligible : Nat
  total_shown : Nat
deriving DecidableEq, Repr

/-- `get_user_position`: first recorded position of the advertiser. -/
def AuctionResult.get_user_position (res : AuctionResult) (user_advertiser_id : String) :
    Option AuctionPosition :=
  res.positions.find? (fun p => p.advertiser_id == user_advertiser_id)

/-- Model of `math.exp` (standard library): a strictly positive rational
function.  Only positivity of the softmax weights can matter below, and
even that is guarded by a uniform fallback in `softmax_positions`. -/
def expQ (x : ℚ) : ℚ :=
  if 0 ≤ x then 1 + x else 1 / (1 - x)

/-- `max(ad_ranks)` on a non-empty Python list (0 as junk default). -/
def maxQ : List ℚ → ℚ
  | [] => 0
  | [x] => x
  | x :: y :: xs => max x (maxQ (y :: xs))

/-- The sampling loop of `softmax_positions`: for each position in order,
draw one winner from the remaining candidates with renormalised
probabilities, remove it, and record its position.  The fuel is the
iteration count `n` of `for position in range(1, n + 1)`. -/
def allocatePositions (probs : List ℚ) :
    Nat → List Nat → Nat → List Nat → SeededRNG → List Nat × SeededRNG
  | 0, _, _, positions, rng => (positions, rng)
  | fuel + 1, remaining, position, positions, rng =>
    if remaining.isEmpty then (positions, rng)
    else
      let remaining_probs := remaining.map (fun i => probs.getD i 0)
      let total_prob := remaining_probs.sum
      let weights :=
        if total_prob ≤ 0 then remaining.map (fun _ => 1 / (remaining.length : ℚ))
        else remaining_probs.map (fun p => p / total_prob)
      let (winner_local, rng') := rng.choicesIdx weights
      let winner := remaining.getD winner_local 0
      allocatePositions probs fuel (remaining.erase winner) (position + 1)
        (positions.set winner position) rng'

/-- `softmax_positions`: probabilistic position allocation with
temperature softmax; deterministic ad-rank sort when `rng` is `None`. -/
def softmax_positions (ad_ranks : List ℚ) (tau : ℚ := 13/20)
    (rng : Option SeededRNG := none) : List Nat × Option SeededRNG :=
  let n := ad_ranks.length
  if n = 0 then ([], rng)
  else if n = 1 then ([1], rng)
  else
    match rng with
    | none =>
      let sorted_indices := (List.range n).mergeSort
        (fun i j => decide (ad_ranks.getD j 0 ≤ ad_ranks.getD i 0))
      ((List.range n).map (fun idx => sorted_indices.indexOf idx + 1), none)
    | some r =>
      let max_rank := maxQ ad_ranks
      let exp_ranks := ad_ranks.map (fun v => expQ ((v - max_rank) / tau))
      let sum_exp := exp_ranks.sum
      let probs := exp_ranks.map (fun e => e / sum_exp)
      let (positions, r') := allocatePositions probs n (List.range n) 1 (List.replicate n 0) r
      (positions, some r')

/-- `calculate_cpc`: generalized second price with floor and epsilon. -/
def calculate_cpc (winner_ad_rank winner_qs winner_context next_ad_rank : ℚ)
    (min_cpc : ℚ := 1/100) (epsilon : ℚ := 1/100) : ℚ :=
  let denominator := winner_qs * winner_context
  if denominator ≤ 0 then min_cpc
  else max min_cpc (next_ad_rank / denominator + epsilon)

/-- A not-shown record (`position=0, cpc=0, won_auction=False`). -/
def lossPosition (e : AuctionEntry) (reason : String) : AuctionPosition :=
  { advertiser_id := e.advertiser_id, keyword_id := e.keyword_id, ad_id := e.ad_id,
    position := 0, ad_rank := e.ad_rank, cpc := 0, won_auction := false,
    loss_reason := some reason }

/-- The winner record built for a shown entry: its allocated position
and the GSP price against the ad-rank of the entry placed one position
below (`min_ad_rank` when there is none). -/
def shownPosition (min_ad_rank : ℚ) (shown_alloc : List (AuctionEntry × Nat))
    (ep : AuctionEntry × Nat) : AuctionPosition :=
  let position := ep.2
  let next_ad_rank :=
    match shown_alloc.find? (fun other => other.2 == position + 1) with
    | some other => other.1.ad_rank
    | none => min_ad_rank
  { advertiser_id := ep.1.advertiser_id
    keyword_id := ep.1.keyword_id
    ad_id := ep.1.ad_id
    position := position
    ad_rank := ep.1.ad_rank
    cpc := calculate_cpc ep.1.ad_rank ep.1.quality_score ep.1.context_factor next_ad_rank
    won_auction := true
    loss_reason := none }

/-- Budget exclusion test: `budget_remaining.get(id, inf) <= 0`.  A
missing key defaults to `float('inf')`, which is never `≤ 0`. -/
def budgetExcludedEntry (budget_remaining : Option (List (String × ℚ))) (e : AuctionEntry) :
    Bool :=
  match budget_remaining with
  | none => false
  | some br =>
    match dictGet br e.advertiser_id with
    | none => false
    | some remaining => decide (remaining ≤ 0)

/-- `run_auction`.  Python filters membership by dataclass value
equality, so the two-stage `eligible` construction equals predicate
filtering on (rank ok, budget ok). -/
def run_auction (entries : List AuctionEntry) (query : String)
    (max_positions : Nat := 8) (min_ad_rank : ℚ := 1/10)
    (budget_remaining : Option (List (String × ℚ)) := none)
    (rng : Option SeededRNG := none) : AuctionResult × Option SeededRNG :=
  if entries.isEmpty then
    (⟨query, [], 0, 0⟩, rng)
  else
    let rankOk := fun (e : AuctionEntry) => decide (min_ad_rank ≤ e.ad_rank)
    let budget_excluded := entries.filter (fun e => rankOk e && budgetExcludedEntry budget_remaining e)
    let rank_excluded := entries.filter (fun e => !rankOk e)
    let eligible := entries.filter (fun e => rankOk e && !budgetExcludedEntry budget_remaining e)
    let excl_positions := budget_excluded.map (fun e => lossPosition e "budget") ++
      rank_excluded.map (fun e => lossPosition e "rank")
    if eligible.isEmpty then
      (⟨query, excl_positions, 0, 0⟩, rng)
    else
      let sorted_eligible := eligible.mergeSort
        (fun a b => decide (b.ad_rank ≤ a.ad_rank))
      let shown := sorted_eligible.take max_positions
      let not_shown := sorted_eligible.drop max_positions
      let ad_ranks := shown.map AuctionEntry.ad_rank
      let (allocated_positions, rng') := softmax_positions ad_ranks (13/20) rng
      let shown_positions := (shown.zip allocated_positions).map
        (shownPosition min_ad_rank (shown.zip allocated_positions))
      let unplaced_positions := not_shown.map (fun e => lossPosition e "rank")
      (⟨query, excl_positions ++ shown_positions ++ unplaced_positions,
        eligible.length, shown.length⟩, rng')

/-- `calculate_impression_share`: share and loss breakdown. -/
def calculate_impression_share (user_impressions total_eligible_auctions
    lost_to_budget lost_to_rank : Nat) : ℚ × ℚ × ℚ :=
  if total_eligible_auctions = 0 then (0, 0, 0)
  else
    ((user_impressions : ℚ) / total_eligible_auctions,
     (lost_to_budget : ℚ) / total_eligible_auctions,
     (lost_to_rank : ℚ) / total_eligible_auctions)

/-! ## Click / conversion model (`clicks.py`) -/

structure ClickResult where
  clicked : Bool
  is_fraud : Bool
  ctr_used : ℚ
  ctr_components : List (String × ℚ)
deriving DecidableEq, Repr

structure ConversionResult where
  converted : Bool
  is_tracked : Bool
  delay_days : Nat
  cvr_used : ℚ
  cvr_components : List (String × ℚ)
deriving DecidableEq, Repr

/-- `DEFAULT_POSITION_MULTIPLIERS` lookup with default 0.1;
`position <= 0` (here: position 0, the "not shown" marker) gives 0. -/
def get_position_multiplier (position : Nat) : ℚ :=
  match position with
  | 0 => 0
  | 1 => 1
  | 2 => 85/100
  | 3 => 70/100
  | 4 => 55/100
  | 5 => 40/100
  | 6 => 30/100
  | 7 => 22/100
  | 8 => 15/100
  | _ => 1/10

/-- `compute_ctr`: position/ad/relevance/fatigue multipliers with
multiplicative noise, clamped to [0, 1]. -/
def compute_ctr (base_ctr : ℚ) (position : Nat) (ad_strength relevance fatigue : ℚ)
    (noise_variance : ℚ := 1/10) (rng : Option SeededRNG := none) :
    (ℚ × List (String × ℚ)) × Option SeededRNG :=
  let pos_mult := get_position_multiplier position
  let ad_mult := 6/10 + 4/10 * ad_strength
  let rel_mult := 7/10 + 6/10 * relevance
  let fatigue_mult := 1 - 1/2 * fatigue
  let (noise_mult, rng') :=
    match rng with
    | some r => let (n, r') := r.noise 1 noise_variance; (n, some r')
    | none => (1, none)
  let ctr := base_ctr * pos_mult * ad_mult * rel_mult * fatigue_mult * noise_mult
  let ctr := max 0 (min 1 ctr)
  ((ctr, [("base_ctr", base_ctr), ("position_mult", pos_mult), ("ad_strength_mult", ad_mult),
    ("relevance_mult", rel_mult), ("fatigue_mult", fatigue_mult), ("noise_mult", noise_mult)]),
   rng')

/-- `compute_cvr`: landing/offer/trust/quality multipliers with noise,
clamped to [0, 1]. -/
def compute_cvr (base_cvr landing_mult : ℚ) (offer_mult : ℚ := 1) (trust_mult : ℚ := 1)
    (quality_penalty : ℚ := 0) (noise_variance : ℚ := 1/10)
    (rng : Option SeededRNG := none) : (ℚ × List (String × ℚ)) × Option SeededRNG :=
  let quality_mult := 1 - quality_penalty
  let (noise_mult, rng') :=
    match rng with
    | some r => let (n, r') := r.noise 1 noise_variance; (n, some r')
    | none => (1, none)
  let cvr := base_cvr * landing_mult * offer_mult * trust_mult * noise_mult * quality_mult
  let cvr := max 0 (min 1 cvr)
  ((cvr, [("base_cvr", base_cvr), ("landing_mult", landing_mult), ("offer_mult", offer_mult),
    ("trust_mult", trust_mult), ("noise_mult", noise_mult), ("quality_mult", quality_mult)]),
   rng')

/-- `simulate_click`: Bernoulli click then (short-circuit) fraud tag;
deterministic `ctr >= 0.5` fallback without an RNG. -/
def simulate_click (ctr : ℚ) (fraud_rate : ℚ := 0) (rng : Option SeededRNG := none) :
    ClickResult × Option SeededRNG :=
  match rng with
  | none =>
    ({ clicked := decide (1/2 ≤ ctr), is_fraud := false, ctr_used := ctr,
       ctr_components := [] }, none)
  | some r =>
    let (clicked, r1) := r.bernoulli ctr
    if clicked then
      let (fraud, r2) := r1.bernoulli fraud_rate
      ({ clicked := true, is_fraud := fraud, ctr_used := ctr, ctr_components := [] }, some r2)
    else
      ({ clicked := false, is_fraud := false, ctr_used := ctr, ctr_components := [] }, some r1)

/-- The renormalised delay distribution of `simulate_conversion`. -/
def conversionDelayProbs (max_delay_days : Nat) : List ℚ :=
  let delay_probs := ([1/2, 1/4, 12/100, 7/100, 3/100, 2/100, 1/100] : List ℚ).take max_delay_days
  let total := delay_probs.sum
  delay_probs.map (fun p => p / total)

/-- `simulate_conversion`: Bernoulli conversion, tracking loss, weighted
delay draw; deterministic `cvr >= 0.5` fallback without an RNG. -/
def simulate_conversion (cvr : ℚ) (tracking_loss_rate : ℚ := 0) (max_delay_days : Nat := 7)
    (rng : Option SeededRNG := none) : ConversionResult × Option SeededRNG :=
  match rng with
  | none =>
    ({ converted := decide (1/2 ≤ cvr), is_tracked := true, delay_days := 0,
       cvr_used := cvr, cvr_components := [] }, none)
  | some r =>
    let (converted, r1) := r.bernoulli cvr
    if converted then
      let (lost, r2) := r1.bernoulli tracking_loss_rate
      let delay_probs := conversionDelayProbs max_delay_days
      let (delay_days, r3) := r2.choicesIdx delay_probs
      ({ converted := true, is_tracked := !lost, delay_days := delay_days,
         cvr_used := cvr, cvr_components := [] }, some r3)
    else
      ({ converted := false, is_tracked := true, delay_days := 0,
         cvr_used := cvr, cvr_components := [] }, some r1)

/-- `FatigueState` (clicks.py): the spec's two-step rule — additions are
capped at 1 as they arrive, decay is applied at end of day. -/
structure FatigueState where
  impressions_today : Nat := 0
  cumulative_fatigue : ℚ := 0
  scale : ℚ := 1200
  decay_rate : ℚ := 92/100
deriving DecidableEq, Repr

/-- `FatigueState.add_impressions`: add `count / scale`, cap at 1. -/
def FatigueState.add_impressions (s : FatigueState) (count : Nat) : FatigueState :=
  { s with
    impressions_today := s.impressions_today + count
    cumulative_fatigue := min 1 (s.cumulative_fatigue + (count : ℚ) / s.scale) }

/-- `FatigueState.end_day`: multiply by the decay rate, reset counter. -/
def FatigueState.end_day (s : FatigueState) : FatigueState :=
  { s with
    cumulative_fatigue := s.cumulative_fatigue * s.decay_rate
    impressions_today := 0 }

/-- `calculate_landing_multiplier`. -/
def calculate_landing_multiplier (relevance_score load_time_ms mobile_score : ℚ)
    (is_mobile : Bool) : ℚ :=
  let load_mult : ℚ :=
    if load_time_ms < 1500 then 11/10
    else if load_time_ms < 2500 then 1
    else if load_time_ms < 4000 then 85/100
    else 7/10
  let mobile_mult : ℚ := if is_mobile then 8/10 + 4/10 * mobile_score else 1
  let relevance_mult := 6/10 + 6/10 * relevance_score
  load_mult * mobile_mult * relevance_mult

/-! ## Simulation state (`state.py`) -/

inductive IntentLevel where
  | high
  | medium
  | low
deriving DecidableEq, Repr

inductive DeviceType where
  | mobile
  | desktop
deriving DecidableEq, Repr

inductive TimeBucket where
  | morning
  | afternoon
  | evening
  | night
deriving DecidableEq, Repr

inductive CampaignStatus where
  | active
  | paused
  | ended
  | draft
deriving DecidableEq, Repr

inductive EntityStatus where
  | active
  | paused
  | removed
deriving DecidableEq, Repr

def IntentLevel.value : IntentLevel → String
  | .high => "high"
  | .medium => "medium"
  | .low => "low"

def DeviceType.value : DeviceType → String
  | .mobile => "mobile"
  | .desktop => "desktop"

def TimeBucket.value : TimeBucket → String
  | .morning => "morning"
  | .afternoon => "afternoon"
  | .evening => "evening"
  | .night => "night"

structure LandingPage where
  id : String
  url : String
  name : String
  relevance_score : ℚ := 7/10
  load_time_ms : ℚ := 2000
  mobile_score : ℚ := 8/10
deriving DecidableEq, Repr

structure Ad where
  id : String
  ad_group_id : String
  landing_page_id : Option String
  headline1 : String
  headline2 : String := ""
  headline3 : String := ""
  description1 : String := ""
  description2 : String := ""
  status : EntityStatus := .active
  ad_strength : ℚ := 1/2
deriving DecidableEq, Repr

structure Keyword where
  id : String
  ad_group_id : String
  text : String
  match_type : MatchType := .broad
  intent : Option IntentLevel := none
  bid_override : Option ℚ := none
  status : EntityStatus := .active
  is_negative : Bool := false
  quality_score : ℚ := 1/2
  ctr_ema : ℚ := 0
  cvr_ema : ℚ := 0
deriving DecidableEq, Repr

structure AdGroup where
  id : String
  campaign_id : String
  name : String
  status : EntityStatus := .active
  default_bid : ℚ := 1
  keywords : List Keyword := []
  ads : List Ad := []
deriving DecidableEq, Repr

structure Campaign where
  id : String
  name : String
  status : CampaignStatus := .active
  budget : ℚ := 50
  daily_spend : ℚ := 0
  bid_strategy : String := "manual_cpc"
  target_cpa : Option ℚ := none
  ad_groups : List AdGroup := []
deriving DecidableEq, Repr

structure Advertiser where
  id : String
  name : String
  is_user : Bool := false
  daily_budget : ℚ := 100
  campaigns : List Campaign := []
  landing_pages : List LandingPage := []
  archetype : Option String := none
  bid_multiplier : ℚ := 1
  budget_multiplier : ℚ := 1
  base_quality_score : ℚ := 6/10
deriving DecidableEq, Repr

structure Segment where
  intent : IntentLevel
  device : DeviceType
  time_bucket : TimeBucket
  geo : String
deriving DecidableEq, Repr

/-- `Segment.to_key`. -/
def Segment.to_key (s : Segment) : String :=
  s.intent.value ++ "_" ++ s.device.value ++ "_" ++ s.time_bucket.value ++ "_" ++ s.geo

structure SearchQuery where
  query : String
  topic : String
  segment : Segment
  true_intent_score : ℚ
  conversion_propensity : ℚ
  cpc_pressure : ℚ
  match_noise_risk : ℚ
deriving DecidableEq, Repr

/-- `CausalLog`: driver name → impact weight. -/
structure CausalLog where
  drivers : List (String × ℚ) := []
deriving DecidableEq, Repr

/-- `add_driver`: accumulate a weight onto a driver. -/
def CausalLog.add_driver (log : CausalLog) (name : String) (weight : ℚ) : CausalLog :=
  ⟨dictSet log.drivers name ((dictGet log.drivers name).getD 0 + weight)⟩

/-- `normalize`: divide by the total when it is positive. -/
def CausalLog.normalize (log : CausalLog) : CausalLog :=
  let total := (log.drivers.map (fun kv => kv.2)).sum
  if 0 < total then ⟨log.drivers.map (fun kv => (kv.1, kv.2 / total))⟩ else log

/-- `DayMetrics`: aggregated metrics for one day.  The dataclass types
every numeric field as `float`; the engine stores integer counters in the
count fields, embedded here as casts of the `Nat` totals. -/
structure DayMetrics where
  day : Nat
  impressions : ℚ := 0
  clicks : ℚ := 0
  conversions : ℚ := 0
  cost : ℚ := 0
  revenue : ℚ := 0
  avg_position : ℚ := 0
  avg_quality_score : ℚ := 0
  impression_share : ℚ := 0
  lost_is_budget : ℚ := 0
  lost_is_rank : ℚ := 0
  fraud_clicks : ℚ := 0
  tracking_lost_conversions : ℚ := 0
  causal_log : Option CausalLog := none
deriving DecidableEq, Repr

structure KeywordMetrics where
  keyword_id : String
  day : Nat
  impressions : ℚ := 0
  clicks : ℚ := 0
  conversions : ℚ := 0
  cost : ℚ := 0
  avg_position : ℚ := 0
  avg_cpc : ℚ := 0
  quality_score : ℚ := 0
deriving DecidableEq, Repr

structure SegmentMetrics where
  segment : Segment
  day : Nat
  impressions : ℚ := 0
  clicks : ℚ := 0
  conversions : ℚ := 0
  cost : ℚ := 0
deriving DecidableEq, Repr

structure Action where
  action_type : String
  entity_type : String
  entity_id : String
  field : Option String := none
  value : Option String := none
deriving DecidableEq, Repr

/-! Scenario configuration.  The engine reads the scenario dict with
per-key defaults (`dict.get(key, default)`); a typed structure whose
fields carry exactly those defaults covers the same value space, since a
missing key is indistinguishable from a key bound to the default. -/

structure Seasonality where
  monthly_factors : List ℚ := List.replicate 12 1
  day_of_week_factors : List ℚ := List.replicate 7 1

structure EventShock where
  day_range_lo : Int := 0
  day_range_hi : Int := 0
  demand_mult : ℚ := 1

structure DemandConfig where
  daily_baseline : ℚ := 1000
  intent_split : IntentLevel → ℚ := fun _ => 33/100
  device_split : DeviceType → ℚ := fun _ => 1/2
  geo_split : String → ℚ := fun _ => 1/2
  time_split : TimeBucket → ℚ := fun _ => 1/4

structure CtrCvrConfig where
  base_ctr_by_intent : IntentLevel → ℚ := fun _ => 3/100
  base_cvr_by_intent : IntentLevel → ℚ := fun _ => 5/100

structure ScenarioConfig where
  demand_config : DemandConfig := {}
  ctr_cvr_config : CtrCvrConfig := {}
  seasonality : Seasonality := {}
  event_shocks : List EventShock := []
  fraud_rate : ℚ := 0
  tracking_loss_rate : ℚ := 0

/-- `SimState`: advertisers, scenario, day, fatigue map, QS history. -/
structure SimState where
  advertisers : List Advertiser := []
  scenario_slug : String := ""
  scenario_config : ScenarioConfig := {}
  current_day : Nat := 0
  fatigue_state : List (String × ℚ) := []
  qs_history : List (String × List ℚ) := []

/-- `get_user_advertiser`: first advertiser flagged `is_user`. -/
def SimState.get_user_advertiser (state : SimState) : Option Advertiser :=
  state.advertisers.find? (fun adv => adv.is_user)

/-- `get_all_keywords`. -/
def SimState.get_all_keywords (state : SimState) (advertiser_id : String) : List Keyword :=
  (state.advertisers.filter (fun adv => adv.id == advertiser_id)).foldr
    (fun adv acc =>
      (adv.campaigns.foldr (fun c acc2 =>
        (c.ad_groups.foldr (fun g acc3 => g.keywords ++ acc3) []) ++ acc2) []) ++ acc) []

/-- `get_fatigue`: keyed `f"{advertiser_id}_{segment_key}"`, default 0. -/
def SimState.get_fatigue (state : SimState) (advertiser_id segment_key : String) : ℚ :=
  (dictGet state.fatigue_state (advertiser_id ++ "_" ++ segment_key)).getD 0

/-- `update_fatigue`: `(current + impressions/scale) * decay`, stored
capped at 1. -/
def SimState.update_fatigue (state : SimState) (advertiser_id segment_key : String)
    (impressions : Nat) (scale : ℚ := 1200) (decay : ℚ := 92/100) : SimState :=
  let key := advertiser_id ++ "_" ++ segment_key
  let current := (dictGet state.fatigue_state key).getD 0
  let added := (impressions : ℚ) / scale
  let new_fatigue := (current + added) * decay
  { state with fatigue_state := dictSet state.fatigue_state key (min new_fatigue 1) }

structure RunResult where
  seed : Int
  n_days : Nat
  final_state : SimState
  daily_metrics : List DayMetrics
  keyword_metrics : List KeywordMetrics
  segment_metrics : List SegmentMetrics
  causal_logs : List CausalLog

/-! ## Day engine (`engine.py`) -/

/-- `get_seasonality_multiplier`: month and day-of-week factors, missing
entries defaulting to 1. -/
def get_seasonality_multiplier (day : Nat) (scenario_config : ScenarioConfig) : ℚ :=
  let monthly_factors := scenario_config.seasonality.monthly_factors
  let dow_factors := scenario_config.seasonality.day_of_week_factors
  let month := ((day - 1) / 30) % 12
  let dow := (day - 1) % 7
  let monthly_mult := monthly_factors.getD month 1
  let dow_mult := dow_factors.getD dow 1
  monthly_mult * dow_mult

/-- `get_event_multiplier`: first event shock whose inclusive day range
contains the day. -/
def get_event_multiplier (day : Nat) (scenario_config : ScenarioConfig) : ℚ :=
  match scenario_config.event_shocks.find? (fun ev =>
    decide (ev.day_range_lo ≤ (day : Int)) && decide ((day : Int) ≤ ev.day_range_hi)) with
  | some ev => ev.demand_mult
  | none => 1

def IntentLevel.all : List IntentLevel := [.high, .medium, .low]

def DeviceType.all : List DeviceType := [.mobile, .desktop]

def TimeBucket.all : List TimeBucket := [.morning, .afternoon, .evening, .night]

/-- `generate_segments`: the 48 intent × device × time × geo segments in
enumeration order. -/
def generate_segments : List Segment :=
  IntentLevel.all.foldr (fun intent acc1 =>
    DeviceType.all.foldr (fun device acc2 =>
      TimeBucket.all.foldr (fun time_bucket acc3 =>
        (["primary", "secondary"].map
          (fun geo => Segment.mk intent device time_bucket geo)) ++ acc3) acc2) acc1) []

/-- Python `int()` truncation toward zero on a rational. -/
def pyTrunc (q : ℚ) : Int :=
  Int.tdiv q.num (q.den : Int)

/-- The query synthesis loop of `generate_daily_queries`: one `randint`
draw per query for the placeholder query text. -/
def genQueriesLoop (segment : Segment) :
    Nat → SeededRNG → List SearchQuery × SeededRNG
  | 0, rng => ([], rng)
  | k + 1, rng =>
    let (qn, rng1) := rng.randint 1 10000
    let q : SearchQuery := {
      query := "query_" ++ toString qn
      topic := "generic"
      segment := segment
      true_intent_score := if segment.intent = .high then 7/10 else 4/10
      conversion_propensity := if segment.intent = .high then 1/10 else 2/100
      cpc_pressure := 1
      match_noise_risk := 1/10 }
    let rest := genQueriesLoop segment k rng1
    (q :: rest.1, rest.2)

/-- `generate_daily_queries`: demand share for the segment, truncated to
an int, then that many synthesized queries. -/
def generate_daily_queries (segment : Segment) (demand_config : DemandConfig)
    (seasonality_mult event_mult : ℚ) (rng : SeededRNG) :
    List SearchQuery × SeededRNG :=
  let intent_share := demand_config.intent_split segment.intent
  let device_share := demand_config.device_split segment.device
  let geo_share := demand_config.geo_split segment.geo
  let time_share := demand_config.time_split segment.time_bucket
  let segment_demand := pyTrunc (demand_config.daily_baseline * intent_share *
    device_share * geo_share * time_share * seasonality_mult * event_mult)
  genQueriesLoop segment segment_demand.toNat rng

/-- `apply_actions`: deep copy then a pass-through loop (the action
application body is a TODO `pass` in the source). -/
def apply_actions (state : SimState) (actions : List Action) : SimState :=
  actions.foldl (fun new_state _ => new_state) state

/-- One ad group's contribution to the auction entries: the first
active, non-negative keyword that matches the query (the loop `break`s
on the first match), an entry only if the group has an active ad. -/
def adGroupEntry (adv : Advertiser) (ad_group : AdGroup) (query : String) :
    List AuctionEntry :=
  if ad_group.status != EntityStatus.active then []
  else
    let negatives := (ad_group.keywords.filter (fun k => k.is_negative)).map
      (fun k => NegativeKeyword.mk k.text k.match_type)
    match ad_group.keywords.find? (fun k =>
      k.status == EntityStatus.active && !k.is_negative &&
        (match_keyword k.text query k.match_type negatives true 1).matched) with
    | none => []
    | some keyword =>
      let bid0 :=
        match keyword.bid_override with
        | some b => if b = 0 then ad_group.default_bid else b
        | none => ad_group.default_bid
      let bid := if adv.is_user then bid0 else bid0 * adv.bid_multiplier
      let qs := if adv.is_user then keyword.quality_score else adv.base_quality_score
      match ad_group.ads.find? (fun a => a.status == EntityStatus.active) with
      | none => []
      | some ad =>
        [{ advertiser_id := adv.id
           keyword_id := keyword.id
           ad_id := ad.id
           bid := bid
           quality_score := qs }]

/-- One campaign's contribution: skipped when not active or when no
budget remains. -/
def campaignEntries (adv : Advertiser) (campaign : Campaign) (query : String) :
    List AuctionEntry :=
  if campaign.status != CampaignStatus.active then []
  else if campaign.budget - campaign.daily_spend ≤ 0 then []
  else campaign.ad_groups.foldr (fun g acc => adGroupEntry adv g query ++ acc) []

/-- The entry collection loop of `simulate_day`. -/
def buildEntries (advertisers : List Advertiser) (query : String) : List AuctionEntry :=
  advertisers.foldr (fun adv acc =>
    (adv.campaigns.foldr (fun c acc2 => campaignEntries adv c query ++ acc2) []) ++ acc) []

/-- The `budget_remaining` snapshot: one binding per advertiser id, the
last campaign's remaining budget winning as in a Python dict. -/
def buildBudgetRemaining (advertisers : List Advertiser) : List (String × ℚ) :=
  advertisers.foldl (fun d adv =>
    adv.campaigns.foldl (fun d2 c => dictSet d2 adv.id (c.budget - c.daily_spend)) d) []

/-- `campaign.daily_spend += cost` on every campaign of the user
advertiser object (the first advertiser flagged `is_user`). -/
def addUserSpend : List Advertiser → ℚ → List Advertiser
  | [], _ => []
  | adv :: rest, cost =>
    if adv.is_user then
      let campaigns := adv.campaigns.map (fun c => { c with daily_spend := c.daily_spend + cost })
      { adv with campaigns := campaigns } :: rest
    else adv :: addUserSpend rest cost

/-- The day-start `daily_spend = 0.0` reset over all campaigns. -/
def resetDailySpend (advertisers : List Advertiser) : List Advertiser :=
  advertisers.map (fun adv =>
    { adv with campaigns := adv.campaigns.map (fun c => { c with daily_spend := 0 }) })

/-- The mutable loop state of `simulate_day`'s aggregation counters. -/
structure DayTotals where
  total_impressions : Nat := 0
  total_clicks : Nat := 0
  total_conversions : Nat := 0
  total_cost : ℚ := 0
  total_revenue : ℚ := 0
  total_position_sum : ℚ := 0
  total_qs_sum : ℚ := 0
  eligible_auctions : Nat := 0
  won_auctions : Nat := 0
  lost_budget : Nat := 0
  lost_rank : Nat := 0
  fraud_clicks : Nat := 0
  tracking_lost : Nat := 0
deriving DecidableEq, Repr

/-- State threaded through the per-query loop: the evolving `SimState`
(campaign spend), the RNG, the day totals and the per-segment
impression counter. -/
structure QueryAcc where
  state : SimState
  rng : SeededRNG
  t : DayTotals
  segment_impressions : Nat

/-- Per-query body of the day loop: collect entries, snapshot budgets,
run the auction, and process the user's outcome. -/
def processQuery (cfg : ScenarioConfig) (user_adv_id : String) (segment : Segment)
    (fatigue : ℚ) (acc : QueryAcc) (query : SearchQuery) : QueryAcc :=
  let entries := buildEntries acc.state.advertisers query.query
  if entries.isEmpty then acc
  else
    let user_entry := entries.find? (fun e => e.advertiser_id == user_adv_id)
    let elig := if user_entry.isSome then acc.t.eligible_auctions + 1
      else acc.t.eligible_auctions
    let budget_remaining := buildBudgetRemaining acc.state.advertisers
    let ar := run_auction entries query.query 8 (1/10) (some budget_remaining) (some acc.rng)
    let auction_result := ar.1
    let rng1 := ar.2.getD acc.rng
    match auction_result.get_user_position user_adv_id with
    | none =>
      { acc with
        rng := rng1
        t := { acc.t with eligible_auctions := elig } }
    | some user_pos =>
      if user_pos.won_auction then
        let base_ctr := cfg.ctr_cvr_config.base_ctr_by_intent segment.intent
        let cr := compute_ctr base_ctr user_pos.position (3/5) (7/10) fatigue (1/10) (some rng1)
        let ctr := cr.1.1
        let rng2 := cr.2.getD rng1
        let scr := simulate_click ctr cfg.fraud_rate (some rng2)
        let click_result := scr.1
        let rng3 := scr.2.getD rng2
        let qsAdd :=
          match user_entry with
          | some e => e.quality_score
          | none => 1/2
        let tImp := { acc.t with
          eligible_auctions := elig
          won_auctions := acc.t.won_auctions + 1
          total_impressions := acc.t.total_impressions + 1
          total_position_sum := acc.t.total_position_sum + user_pos.position
          total_qs_sum := acc.t.total_qs_sum + qsAdd }
        if click_result.clicked then
          let cost := user_pos.cpc
          let state1 := { acc.state with advertisers := addUserSpend acc.state.advertisers cost }
          let tClick := { tImp with
            total_clicks := tImp.total_clicks + 1
            total_cost := tImp.total_cost + cost }
          if click_result.is_fraud then
            { state := state1
              rng := rng3
              t := { tClick with fraud_clicks := tClick.fraud_clicks + 1 }
              segment_impressions := acc.segment_impressions + 1 }
          else
            let base_cvr := cfg.ctr_cvr_config.base_cvr_by_intent segment.intent
            let cvrr := compute_cvr base_cvr 1 1 1 0 (1/10) (some rng3)
            let cvr := cvrr.1.1
            let rng4 := cvrr.2.getD rng3
            let convr := simulate_conversion cvr cfg.tracking_loss_rate 7 (some rng4)
            let conv_result := convr.1
            let rng5 := convr.2.getD rng4
            if conv_result.converted then
              if conv_result.is_tracked then
                { state := state1
                  rng := rng5
                  t := { tClick with
                    total_conversions := tClick.total_conversions + 1
                    total_revenue := tClick.total_revenue + 100 }
                  segment_impressions := acc.segment_impressions + 1 }
              else
                { state := state1
                  rng := rng5
                  t := { tClick with tracking_lost := tClick.tracking_lost + 1 }
                  segment_impressions := acc.segment_impressions + 1 }
            else
              { state := state1
                rng := rng5
                t := tClick
                segment_impressions := acc.segment_impressions + 1 }
        else
          { acc with
            rng := rng3
            t := tImp
            segment_impressions := acc.segment_impressions + 1 }
      else
        if user_pos.loss_reason == some "budget" then
          { acc with
            rng := rng1
            t := { acc.t with
              eligible_auctions := elig
              lost_budget := acc.t.lost_budget + 1 } }
        else
          { acc with
            rng := rng1
            t := { acc.t with
              eligible_auctions := elig
              lost_rank := acc.t.lost_rank + 1 } }

/-- Per-segment body of the day loop: generate the segment's queries,
read its fatigue once, fold the query loop, then update fatigue with the
segment's impressions. -/
def processSegment (cfg : ScenarioConfig) (user_adv_id : String)
    (seasonality_mult event_mult : ℚ) (acc : SimState × SeededRNG × DayTotals)
    (segment : Segment) : SimState × SeededRNG × DayTotals :=
  let qs := generate_daily_queries segment cfg.demand_config seasonality_mult event_mult acc.2.1
  let segment_key := segment.to_key
  let fatigue := acc.1.get_fatigue user_adv_id segment_key
  let qacc0 : QueryAcc := { state := acc.1, rng := qs.2, t := acc.2.2, segment_impressions := 0 }
  let qacc := qs.1.foldl (processQuery cfg user_adv_id segment fatigue) qacc0
  let state1 := qacc.state.update_fatigue user_adv_id segment_key qacc.segment_impressions
  (state1, qacc.rng, qacc.t)

/-- `simulate_day`: apply actions, compute multipliers, early-return on a
missing user advertiser, otherwise run the 48-segment loop and assemble
`DayMetrics` and the causal log. -/
def simulate_day (state : SimState) (actions : List Action) (day : Nat) (rng : SeededRNG) :
    SimState × DayMetrics × List CausalLog :=
  let new_state := apply_actions state actions
  let new_state := { new_state with current_day := day }
  let scenario_config := new_state.scenario_config
  let seasonality_mult := get_seasonality_multiplier day scenario_config
  let event_mult := get_event_multiplier day scenario_config
  let metrics0 : DayMetrics := { day := day }
  let causal_log0 : CausalLog := {}
  match new_state.get_user_advertiser with
  | none => (new_state, metrics0, [causal_log0])
  | some user_adv =>
    let new_state := { new_state with advertisers := resetDailySpend new_state.advertisers }
    let start : SimState × SeededRNG × DayTotals := (new_state, rng, {})
    let res := generate_segments.foldl
      (processSegment scenario_config user_adv.id seasonality_mult event_mult) start
    let t := res.2.2
    let causal_log := causal_log0
    let causal_log :=
      if t.lost_rank < t.lost_budget then causal_log.add_driver "budget_limited" (4/10)
      else causal_log
    let causal_log :=
      if t.lost_budget < t.lost_rank then causal_log.add_driver "rank_loss" (3/10)
      else causal_log
    let causal_log :=
      if 0 < t.fraud_clicks then causal_log.add_driver "fraud" (1/10) else causal_log
    let causal_log :=
      if 0 < t.tracking_lost then causal_log.add_driver "tracking_loss" (1/10) else causal_log
    let causal_log := causal_log.normalize
    let metrics : DayMetrics := {
      day := day
      impressions := t.total_impressions
      clicks := t.total_clicks
      conversions := t.total_conversions
      cost := t.total_cost
      revenue := t.total_revenue
      avg_position :=
        if 0 < t.total_impressions then t.total_position_sum / t.total_impressions else 0
      avg_quality_score :=
        if 0 < t.total_impressions then t.total_qs_sum / t.total_impressions else 0
      impression_share :=
        if 0 < t.eligible_auctions then (t.won_auctions : ℚ) / t.eligible_auctions else 0
      lost_is_budget :=
        if 0 < t.eligible_auctions then (t.lost_budget : ℚ) / t.eligible_auctions else 0
      lost_is_rank :=
        if 0 < t.eligible_auctions then (t.lost_rank : ℚ) / t.eligible_auctions else 0
      fraud_clicks := t.fraud_clicks
      tracking_lost_conversions := t.tracking_lost
      causal_log := some causal_log }
    (res.1, metrics, [causal_log])

/-- The day loop of `simulate_run`: `for day in range(1, n_days + 1)`,
each day simulated with its own `create_day_rng(seed, day)`. -/
def runDays (actions_by_day : List (Nat × List Action)) (seed : Int) :
    Nat → Nat → SimState → SimState × List DayMetrics × List CausalLog
  | _, 0, state => (state, [], [])
  | day, fuel + 1, state =>
    let day_rng := create_day_rng seed day
    let day_actions := (dictGet actions_by_day day).getD []
    let step := simulate_day state day_actions day day_rng
    let rest := runDays actions_by_day seed (day + 1) fuel step.1
    (rest.1, step.2.1 :: rest.2.1, step.2.2 ++ rest.2.2)

/-- `simulate_run`: deep-copy the initial state and fold the day loop;
keyword and segment metric lists are never populated by the source. -/
def simulate_run (initial_state : SimState) (actions_by_day : List (Nat × List Action))
    (seed : Int) (n_days : Nat) : RunResult :=
  let res := runDays actions_by_day seed 1 n_days initial_state
  { seed := seed
    n_days := n_days
    final_state := res.1
    daily_metrics := res.2.1
    keyword_metrics := []
    segment_metrics := []
    causal_logs := res.2.2 }

/-- The identifying key of an auction position record, for comparing the
emitted records against the input entries. -/
def posKey (p : AuctionPosition) : String × String × String × ℚ :=
  (p.advertiser_id, p.keyword_id, p.ad_id, p.ad_rank)

/-- The identifying key of an auction entry. -/
def entryKey (e : AuctionEntry) : String × String × String × ℚ :=
  (e.advertiser_id, e.keyword_id, e.ad_id, e.ad_rank)

/-! ## Helper lemmas -/

theorem choiceIndex_go_lt : ∀ (ws : List ℚ) (r : ℚ) (i : Nat), ws ≠ [] →
    choiceIndex.go ws r i < i + ws.length := by
  intro ws
  induction ws with
  | nil => intro r i h; exact absurd rfl h
  | cons w ws ih =>
    intro r i _
    cases ws with
    | nil => simp [choiceIndex.go]
    | cons w2 ws2 =>
      unfold choiceIndex.go
      split
      · simp
      · have := ih (r - w) (i + 1) (by simp)
        simp only [List.length_cons] at this ⊢
        omega

theorem choiceIndex_lt (ws : List ℚ) (r : ℚ) (h : ws ≠ []) :
    choiceIndex ws r < ws.length := by
  have := choiceIndex_go_lt ws r 0 h
  simpa [choiceIndex] using this

theorem choicesIdx_lt (rng : SeededRNG) (ws : List ℚ) (h : ws ≠ []) :
    (rng.choicesIdx ws).1 < ws.length := by
  unfold SeededRNG.choicesIdx
  exact choiceIndex_lt ws _ h

theorem getD_set_ne (l : List Nat) (i j v d : Nat) (h : i ≠ j) :
    (l.set i v).getD j d = l.getD j d := by
  simp [List.getD_eq_getElem?_getD, List.getElem?_set_ne h]

theorem getD_set_self (l : List Nat) (i v d : Nat) (h : i < l.length) :
    (l.set i v).getD i d = v := by
  simp [List.getD_eq_getElem?_getD, List.getElem?_set_self, h]

/-- Loop invariant of the softmax sampling loop: the result keeps the
length, leaves indices outside `remaining` untouched, and assigns the
indices in `remaining` pairwise-distinct positions from the window
`[position, position + fuel)`. -/
theorem allocatePositions_invariant (probs : List ℚ) :
    ∀ (fuel : Nat) (remaining : List Nat) (position : Nat) (positions : List Nat)
      (rng : SeededRNG),
      remaining.Nodup → remaining.length = fuel →
      (∀ i ∈ remaining, i < positions.length) →
      (allocatePositions probs fuel remaining position positions rng).1.length
          = positions.length
      ∧ (∀ j, j ∉ remaining →
          (allocatePositions probs fuel remaining position positions rng).1.getD j 0
            = positions.getD j 0)
      ∧ (∀ j ∈ remaining,
          position ≤ (allocatePositions probs fuel remaining position positions rng).1.getD j 0
          ∧ (allocatePositions probs fuel remaining position positions rng).1.getD j 0
              < position + fuel)
      ∧ (∀ j ∈ remaining, ∀ k ∈ remaining, j ≠ k →
          (allocatePositions probs fuel remaining position positions rng).1.getD j 0
            ≠ (allocatePositions probs fuel remaining position positions rng).1.getD k 0) := by
  intro fuel
  induction fuel with
  | zero =>
    intro remaining position positions rng hnd hlen hb
    have hrem : remaining = [] := List.eq_nil_of_length_eq_zero hlen
    subst hrem
    simp [allocatePositions]
  | succ fuel ih =>
    intro remaining position positions rng hnd hlen hb
    have hne : remaining ≠ [] := by
      intro h; rw [h] at hlen; simp at hlen
    have hemp : remaining.isEmpty = false := by
      cases remaining
      · exact absurd rfl hne
      · rfl
    rw [allocatePositions, hemp]
    simp only [Bool.false_eq_true, if_false]
    set remaining_probs := remaining.map (fun i => probs.getD i 0) with hrp
    set total_prob := remaining_probs.sum with htp
    set weights := if total_prob ≤ 0 then remaining.map (fun _ => 1 / (remaining.length : ℚ))
      else remaining_probs.map (fun p => p / total_prob) with hwts
    have hwlen : weights.length = remaining.length := by
      rw [hwts]; split <;> simp [hrp]
    have hwne : weights ≠ [] := by
      intro h
      rw [h] at hwlen
      exact hne (List.eq_nil_of_length_eq_zero hwlen.symm)
    set winner_local := (rng.choicesIdx weights).1 with hwl
    have hwllt : winner_local < remaining.length := by
      rw [← hwlen]; exact choicesIdx_lt rng weights hwne
    set winner := remaining.getD winner_local 0 with hwin
    have hwmem : winner ∈ remaining := by
      rw [hwin]
      simp only [List.getD_eq_getElem?_getD, List.getElem?_eq_getElem hwllt, Option.getD_some]
      exact List.getElem_mem hwllt
    set rem' := remaining.erase winner with hrem'
    set pos' := positions.set winner position with hpos'
    have hnd' : rem'.Nodup := hnd.erase winner
    have hlen' : rem'.length = fuel := by
      rw [hrem', List.length_erase_of_mem hwmem, hlen]
      omega
    have hb' : ∀ i ∈ rem', i < pos'.length := by
      intro i hi
      rw [hpos', List.length_set]
      exact hb i (List.mem_of_mem_erase hi)
    have hwnotin : winner ∉ rem' := by
      rw [hrem']
      intro h
      exact absurd ((hnd.mem_erase_iff).1 h).1 (by simp)
    have hmem' : ∀ j, j ∈ rem' ↔ j ≠ winner ∧ j ∈ remaining := by
      intro j; rw [hrem']; exact hnd.mem_erase_iff
    obtain ⟨IH1, IH2, IH3, IH4⟩ := ih rem' (position + 1) pos' (rng.choicesIdx weights).2
      hnd' hlen' hb'
    refine ⟨?_, ?_, ?_, ?_⟩
    · rw [IH1, hpos', List.length_set]
    · intro j hj
      have hjw : j ≠ winner := fun h => hj (h ▸ hwmem)
      have hj' : j ∉ rem' := fun h => hj (List.mem_of_mem_erase h)
      rw [IH2 j hj', hpos', getD_set_ne _ _ _ _ _ (Ne.symm hjw)]
    · intro j hj
      by_cases hjw : j = winner
      · subst hjw
        rw [IH2 winner hwnotin, hpos', getD_set_self _ _ _ _ (hb winner hj)]
        omega
      · have hj' : j ∈ rem' := (hmem' j).2 ⟨hjw, hj⟩
        have := IH3 j hj'
        omega
    · intro j hj k hk hjk
      by_cases hjw : j = winner
      · subst hjw
        have hk' : k ∈ rem' := (hmem' k).2 ⟨fun h => hjk h.symm, hk⟩
        have hkb := IH3 k hk'
        have hv : pos'.getD winner 0 = position := by
          rw [hpos']; exact getD_set_self _ _ _ _ (hb winner hj)
        rw [IH2 winner hwnotin, hv]
        omega
      · by_cases hkw : k = winner
        · subst hkw
          have hj' : j ∈ rem' := (hmem' j).2 ⟨hjw, hj⟩
          have hjb := IH3 j hj'
          have hv : pos'.getD winner 0 = position := by
            rw [hpos']; exact getD_set_self _ _ _ _ (hb winner hk)
          rw [IH2 winner hwnotin, hv]
          omega
        · have hj' : j ∈ rem' := (hmem' j).2 ⟨hjw, hj⟩
          have hk' : k ∈ rem' := (hmem' k).2 ⟨hkw, hk⟩
          exact IH4 j hj' k hk' hjk

/-- A list of length n whose entries are pairwise distinct and lie in
[1, n] is a permutation of `range' 1 n`. -/
theorem perm_range'_of_bounds_distinct (l : List Nat) (n : Nat)
    (hlen : l.length = n)
    (hbound : ∀ i : Nat, (h : i < l.length) → 1 ≤ l[i] ∧ l[i] < 1 + n)
    (hdist : ∀ i j : Nat, (hi : i < l.length) → (hj : j < l.length) → i ≠ j → l[i] ≠ l[j]) :
    l.Perm (List.range' 1 n) := by
  have hnd : l.Nodup := by
    rw [List.nodup_iff_injective_get]
    intro ⟨i, hi⟩ ⟨j, hj⟩ hij
    by_contra hne
    have : i ≠ j := fun h => hne (by simp [h])
    exact hdist i j hi hj this (by simpa [List.get_eq_getElem] using hij)
  have hsub : l ⊆ List.range' 1 n := by
    intro x hx
    obtain ⟨i, hi, rfl⟩ := List.mem_iff_getElem.1 hx
    have := hbound i hi
    rw [List.mem_range'_1]
    omega
  have hsp := List.subperm_of_subset hnd hsub
  exact hsp.perm_of_length_le (by simp [List.length_range', hlen])

/-- `softmax_positions` always emits a permutation of `{1..n}` — on the
seeded path by the sampling-loop invariant, on the `None` path by the
stable sort. -/
theorem softmax_positions_perm (ad_ranks : List ℚ) (tau : ℚ) (rng : Option SeededRNG) :
    ((softmax_positions ad_ranks tau rng).1).Perm (List.range' 1 ad_ranks.length) := by
  unfold softmax_positions
  by_cases h0 : ad_ranks.length = 0
  · simp [h0]
  · rw [if_neg h0]
    by_cases h1 : ad_ranks.length = 1
    · rw [if_pos h1, h1]
      rfl
    · rw [if_neg h1]
      cases rng with
      | none =>
        simp only
        set n := ad_ranks.length with hn
        set sorted_indices := (List.range n).mergeSort
          (fun i j => decide (ad_ranks.getD j 0 ≤ ad_ranks.getD i 0)) with hsi
        have hperm : sorted_indices.Perm (List.range n) := List.mergeSort_perm _ _
        have hslen : sorted_indices.length = n := by
          rw [hperm.length_eq, List.length_range]
        apply perm_range'_of_bounds_distinct _ n (by simp)
        · intro i hi
          simp only [List.length_map, List.length_range] at hi
          have hmem : i ∈ sorted_indices := hperm.mem_iff.2 (List.mem_range.2 hi)
          have hlt : sorted_indices.indexOf i < n := hslen ▸ List.indexOf_lt_length.2 hmem
          simp only [List.getElem_map, List.getElem_range]
          omega
        · intro i j hi hj hij
          simp only [List.length_map, List.length_range] at hi hj
          have hmi : i ∈ sorted_indices := hperm.mem_iff.2 (List.mem_range.2 hi)
          have hmj : j ∈ sorted_indices := hperm.mem_iff.2 (List.mem_range.2 hj)
          simp only [List.getElem_map, List.getElem_range]
          intro hcontra
          exact hij ((List.indexOf_inj hmi hmj).1 (by omega))
      | some r =>
        simp only
        set n := ad_ranks.length with hn
        set probs := (ad_ranks.map (fun v => expQ ((v - maxQ ad_ranks) / tau))).map
          (fun e => e / (ad_ranks.map (fun v => expQ ((v - maxQ ad_ranks) / tau))).sum) with hpr
        obtain ⟨I1, I2, I3, I4⟩ := allocatePositions_invariant probs n (List.range n) 1
          (List.replicate n 0) r (List.nodup_range n) (List.length_range n)
          (by intro i hi; simp only [List.length_replicate]; exact List.mem_range.1 hi)
        set res := (allocatePositions probs n (List.range n) 1 (List.replicate n 0) r).1
          with hres
        have hreslen : res.length = n := by rw [I1, List.length_replicate]
        apply perm_range'_of_bounds_distinct _ n hreslen
        · intro i hi
          have hmem : i ∈ List.range n := List.mem_range.2 (hreslen ▸ hi)
          have := I3 i hmem
          have hg : res.getD i 0 = res[i] := by
            simp [List.getD_eq_getElem?_getD, List.getElem?_eq_getElem hi]
          rw [hg] at this
          omega
        · intro i j hi hj hij
          have hmi : i ∈ List.range n := List.mem_range.2 (hreslen ▸ hi)
          have hmj : j ∈ List.range n := List.mem_range.2 (hreslen ▸ hj)
          have := I4 i hmi j hmj hij
          have hgi : res.getD i 0 = res[i] := by
            simp [List.getD_eq_getElem?_getD, List.getElem?_eq_getElem hi]
          have hgj : res.getD j 0 = res[j] := by
            simp [List.getD_eq_getElem?_getD, List.getElem?_eq_getElem hj]
          rw [hgi, hgj] at this
          exact this

theorem softmax_positions_length (ad_ranks : List ℚ) (tau : ℚ) (rng : Option SeededRNG) :
    (softmax_positions ad_ranks tau rng).1.length = ad_ranks.length := by
  have := (softmax_positions_perm ad_ranks tau rng).length_eq
  rwa [List.length_range'] at this

/-- Splitting a list by the rank filter and then the budget filter is a
permutation of the list. -/
theorem partition3_perm {α : Type} (p q : α → Bool) (l : List α) :
    (l.filter (fun a => p a && q a) ++ l.filter (fun a => !p a)
      ++ l.filter (fun a => p a && !q a)).Perm l := by
  have hA : (l.filter p).filter q = l.filter (fun a => p a && q a) := by
    rw [List.filter_filter]
    exact List.filter_congr (fun a _ => Bool.and_comm _ _)
  have hB : (l.filter p).filter (fun a => !q a) = l.filter (fun a => p a && !q a) := by
    rw [List.filter_filter]
    exact List.filter_congr (fun a _ => Bool.and_comm _ _)
  have h2 : ((l.filter p).filter q ++ (l.filter p).filter (fun a => !q a)).Perm (l.filter p) :=
    List.filter_append_perm q (l.filter p)
  have h3 : (l.filter p ++ l.filter (fun a => !p a)).Perm l := List.filter_append_perm p l
  rw [← hA, ← hB]
  set A := (l.filter p).filter q
  set B := (l.filter p).filter (fun a => !q a)
  set C := l.filter (fun a => !p a)
  have step1 : (A ++ C ++ B).Perm (B ++ (A ++ C)) := List.perm_append_comm
  have step3 : (B ++ (A ++ C)).Perm (A ++ B ++ C) := by
    rw [← List.append_assoc]
    exact (List.perm_append_comm).append_right C
  have step4 : (A ++ B ++ C).Perm (l.filter p ++ C) := h2.append_right C
  exact step1.trans (step3.trans (step4.trans h3))

theorem dictGet_dictSet_self {β : Type} (d : List (String × β)) (k : String) (v : β) :
    dictGet (dictSet d k v) k = some v := by
  simp [dictGet, dictSet]

theorem apply_actions_eq (state : SimState) (actions : List Action) :
    apply_actions state actions = state := by
  unfold apply_actions
  induction actions with
  | nil => rfl
  | cons a rest ih => exact ih

/-- Characterisation of a broad negative's blocking test: some token of
the negative, or one of its synonyms, appears in the query. -/
theorem negativeBlocks_broad_iff (q_tokens : List String) (txt : String) :
    negativeBlocks q_tokens ⟨txt, .broad⟩ = true
      ↔ ∃ t ∈ tokenize txt, t ∈ q_tokens ∨ ∃ s ∈ get_synonyms t, s ∈ q_tokens := by
  unfold negativeBlocks
  simp [List.any_eq_true, List.contains_iff_exists_mem_beq]

/-! ## Claim theorems -/

/-- C3: for positive `winner_qs * winner_context` the CPC is
`max(min_cpc, next_ad_rank / (winner_qs * winner_context) + epsilon)`;
the result is at least `min_cpc` on every input; and the spec's CPC
identity `calculate_cpc(10, 0.8, 1.0, 6.0, eps=0.01) = 7.51 ± 0.01`
holds (in fact exactly). -/
theorem calculate_cpc_spec :
    (∀ wr qs ctx next mc eps, 0 < qs * ctx →
      calculate_cpc wr qs ctx next mc eps = max mc (next / (qs * ctx) + eps))
    ∧ (∀ wr qs ctx next mc eps, mc ≤ calculate_cpc wr qs ctx next mc eps)
    ∧ |calculate_cpc 10 (8/10) 1 6 (1/100) (1/100) - 751/100| ≤ 1/100 := by
  refine ⟨?_, ?_, ?_⟩
  · intro wr qs ctx next mc eps h
    unfold calculate_cpc
    rw [if_neg (by linarith)]
  · intro wr qs ctx next mc eps
    simp only [calculate_cpc]
    split
    · exact le_refl mc
    · exact le_max_left mc _
  · norm_num [calculate_cpc]

theorem calculate_cpc_spec_witness :
    calculate_cpc 1 1 1 2 (1/100) (1/100) = max (1/100) (2 / ((1:ℚ) * 1) + 1/100) :=
  calculate_cpc_spec.1 1 1 1 2 (1/100) (1/100) (by norm_num)

/-- C4 (counterexample): with stored fatigue 1/2 and 1200 impressions,
the engine stores 1, while the claimed rule `min(1, f + n/1200) * 0.92`
gives 0.92. -/
theorem update_fatigue_claim_counterexample :
    ¬ (dictGet ((SimState.mk [] "" {} 0 [("a_s", 1/2)] []).update_fatigue "a" "s"
          1200).fatigue_state ("a" ++ "_" ++ "s")
        = some (min 1 ((1:ℚ)/2 + (1200:ℚ)/1200) * (92/100))) := by
  with_unfolding_all decide

/-- C4 (amended): the engine's end-of-day fatigue update stores
`min((f + n/1200) * 0.92, 1)` — it caps at 1 *after* applying the decay —
and this agrees with the spec's two-step rule (cap the cumulative value
at 1, then decay), embodied by `FatigueState`, exactly when
`f + n/1200 ≤ 1`. -/
theorem update_fatigue_engine_rule :
    ∀ (st : SimState) (a sk : String) (n : Nat),
      dictGet (st.update_fatigue a sk n).fatigue_state (a ++ "_" ++ sk)
        = some (min (((dictGet st.fatigue_state (a ++ "_" ++ sk)).getD 0
            + (n : ℚ) / 1200) * (92/100)) 1)
      ∧ ((dictGet st.fatigue_state (a ++ "_" ++ sk)).getD 0 + (n : ℚ) / 1200 ≤ 1 →
          min (((dictGet st.fatigue_state (a ++ "_" ++ sk)).getD 0
              + (n : ℚ) / 1200) * (92/100)) 1
            = ((FatigueState.mk 0 ((dictGet st.fatigue_state (a ++ "_" ++ sk)).getD 0)
                1200 (92/100)).add_impressions n).end_day.cumulative_fatigue) := by
  intro st a sk n
  constructor
  · unfold SimState.update_fatigue
    exact dictGet_dictSet_self _ _ _
  · intro h
    unfold FatigueState.add_impressions FatigueState.end_day
    simp only
    rw [min_eq_right h, min_eq_left (by nlinarith)]

theorem update_fatigue_engine_rule_witness :
    min ((((0:ℚ) + (600 : ℚ) / 1200) * (92/100))) 1
      = ((FatigueState.mk 0 ((dictGet ((SimState.mk [] "" {} 0 [] []).fatigue_state)
          ("a" ++ "_" ++ "s")).getD 0) 1200 (92/100)).add_impressions
          600).end_day.cumulative_fatigue := by
  have h := (update_fatigue_engine_rule (SimState.mk [] "" {} 0 [] []) "a" "s" 600).2
  simpa [dictGet] using h (by norm_num [dictGet])

/-- C5 (counterexample): when both the keyword and the query tokenize to
the empty list, exact match succeeds, so the result is `matched = true`,
not `matched = false` as claimed. -/
theorem match_keyword_empty_counterexample :
    (match_keyword "" "" .exact [] false 1).matched = true := by
  with_unfolding_all decide

/-- C5 (amended): `match_keyword` is a total function; empty-token
inputs are treated as no match under phrase and broad for all negatives,
and under exact when exactly one of keyword/query tokenizes empty; when
both tokenize empty, exact match succeeds (`matched = true` with no
negatives). -/
theorem match_keyword_empty_tokens :
    ∀ (kw q : String) (negs : List NegativeKeyword) (ls : Bool) (nq : ℚ),
      (tokenize kw = [] ∨ tokenize q = []) →
        ((match_keyword kw q .phrase negs ls nq).matched = false
        ∧ (match_keyword kw q .broad negs ls nq).matched = false
        ∧ (¬(tokenize kw = [] ∧ tokenize q = []) →
            (match_keyword kw q .exact negs ls nq).matched = false)
        ∧ (tokenize kw = [] → tokenize q = [] →
            (match_keyword kw q .exact [] ls nq).matched = true)) := by
  intro kw q negs ls nq h
  refine ⟨?_, ?_, ?_, ?_⟩
  · have hp : phrase_match (tokenize kw) (tokenize q) = false := by
      rcases h with h | h
      · simp [phrase_match, h]
      · rcases hk : tokenize kw with _ | ⟨t, ts⟩
        · simp [phrase_match]
        · simp [phrase_match, h, hk]
    simp [match_keyword, positiveStep, hp]
  · have hb : (compute_broad_match_score (tokenize kw) (tokenize q)).1 = 0 := by
      rcases h with h | h <;> simp [compute_broad_match_score, h]
    have : (broad_match (tokenize kw) (tokenize q) ls).1 = false := by
      unfold broad_match
      rcases hs : compute_broad_match_score (tokenize kw) (tokenize q) with ⟨sc, reason⟩
      simp only [hs] at hb
      subst hb
      cases ls <;> simp
    unfold match_keyword positiveStep
    simp only [this]
    simp
  · intro hne
    have hx : exact_match (tokenize kw) (tokenize q) = false := by
      rcases h with h | h
      · rcases hq : tokenize q with _ | ⟨t, ts⟩
        · exact absurd ⟨h, hq⟩ hne
        · simp [exact_match, h, hq]
      · rcases hk : tokenize kw with _ | ⟨t, ts⟩
        · exact absurd ⟨hk, h⟩ hne
        · simp [exact_match, h, hk]
    simp [match_keyword, positiveStep, hx]
  · intro hk hq
    simp [match_keyword, positiveStep, hk, hq, exact_match]

theorem match_keyword_empty_tokens_witness :
    (match_keyword "" "a" .phrase [] false 1).matched = false
    ∧ (match_keyword "" "a" .broad [] false 1).matched = false := by
  have h := match_keyword_empty_tokens "" "a" [] false 1 (Or.inl (by with_unfolding_all decide))
  exact ⟨h.1, h.2.1⟩

/-- C6: negative handling runs only after a positive match (a failed
positive match yields a result independent of the negatives list, with
no blocking recorded); a broad negative blocks exactly when some token
of the negative or one of its synonyms appears in the query, recording
the negative's text; and the spec's concrete case — keyword
"villa dubai" (broad), query "cheap villa dubai", broad negative
"cheap" — yields `matched = false`, `blocked_by_negative = true`,
`blocking_negative = "cheap"`. -/
theorem match_keyword_negative_spec :
    (∀ (kw q : String) (mt : MatchType) (negs : List NegativeKeyword) (ls : Bool) (nq : ℚ),
      (match_keyword kw q mt [] ls nq).matched = false →
        match_keyword kw q mt negs ls nq = match_keyword kw q mt [] ls nq)
    ∧ (∀ (txt : String) (q_tokens : List String) (nq : ℚ),
        ((check_negative_block q_tokens [⟨txt, .broad⟩] nq).1 = true
          ↔ ∃ t ∈ tokenize txt, t ∈ q_tokens ∨ ∃ s ∈ get_synonyms t, s ∈ q_tokens)
        ∧ ((check_negative_block q_tokens [⟨txt, .broad⟩] nq).1 = true →
            (check_negative_block q_tokens [⟨txt, .broad⟩] nq).2 = some txt))
    ∧ ((match_keyword "villa dubai" "cheap villa dubai" .broad [⟨"cheap", .broad⟩] false
          1).matched = false
      ∧ (match_keyword "villa dubai" "cheap villa dubai" .broad [⟨"cheap", .broad⟩] false
          1).blocked_by_negative = true
      ∧ (match_keyword "villa dubai" "cheap villa dubai" .broad [⟨"cheap", .broad⟩] false
          1).blocking_negative = some "cheap") := by
  refine ⟨?_, ?_, ?_⟩
  · intro kw q mt negs ls nq h
    cases hp : (positiveStep (tokenize kw) (tokenize q) mt ls).1 with
    | false => simp [match_keyword, hp]
    | true =>
      exfalso
      simp [match_keyword, hp] at h
  · intro txt q_tokens nq
    refine ⟨?_, ?_⟩
    · rw [← negativeBlocks_broad_iff q_tokens txt]
      cases hb : negativeBlocks q_tokens ⟨txt, .broad⟩ <;>
        simp [check_negative_block, hb]
    · intro hblk
      cases hb : negativeBlocks q_tokens ⟨txt, .broad⟩
      · simp [check_negative_block, hb] at hblk
      · simp [check_negative_block, hb]
  · with_unfolding_all decide

theorem match_keyword_negative_spec_witness :
    match_keyword "x" "y" .exact [⟨"z", .exact⟩] false 1
      = match_keyword "x" "y" .exact [] false 1 :=
  match_keyword_negative_spec.1 "x" "y" .exact [⟨"z", .exact⟩] false 1
    (by with_unfolding_all decide)

/-- C9: with no user advertiser, `simulate_day` returns (without error —
it is a total function) the default zero-valued `DayMetrics`. -/
theorem simulate_day_no_user :
    ∀ (state : SimState) (actions : List Action) (day : Nat) (rng : SeededRNG),
      (∀ adv ∈ state.advertisers, adv.is_user = false) →
        ((simulate_day state actions day rng).2.1.impressions = 0
        ∧ (simulate_day state actions day rng).2.1.clicks = 0
        ∧ (simulate_day state actions day rng).2.1.conversions = 0
        ∧ (simulate_day state actions day rng).2.1.cost = 0
        ∧ (simulate_day state actions day rng).2.1.revenue = 0
        ∧ (simulate_day state actions day rng).2.1.fraud_clicks = 0
        ∧ (simulate_day state actions day rng).2.1.tracking_lost_conversions = 0) := by
  intro state actions day rng h
  have hfind : ({ state with current_day := day } : SimState).get_user_advertiser = none := by
    unfold SimState.get_user_advertiser
    rw [List.find?_eq_none]
    intro adv hmem
    simp only at hmem
    simp [h adv hmem]
  unfold simulate_day
  rw [apply_actions_eq]
  simp [hfind]

theorem simulate_day_no_user_witness :
    (simulate_day (SimState.mk [] "" {} 0 [] []) [] 1 (SeededRNG.ofSeed 42)).2.1.impressions
      = 0 :=
  (simulate_day_no_user (SimState.mk [] "" {} 0 [] []) [] 1 (SeededRNG.ofSeed 42)
    (by intro adv hmem; simp at hmem)).1

/-- C1: `simulate_run` is a pure function of
`(state, actions_by_day, seed, n_days)` — the only randomness is the RNG
derived from the seed — so two invocations with identical arguments
produce identical `daily_metrics` lists, hence every per-day metric is
equal in both runs. -/
theorem simulate_run_deterministic :
    ∀ (initial_state : SimState) (actions_by_day : List (Nat × List Action)) (seed : Int)
      (n_days : Nat) (r1 r2 : RunResult),
      r1 = simulate_run initial_state actions_by_day seed n_days →
      r2 = simulate_run initial_state actions_by_day seed n_days →
      r1.daily_metrics = r2.daily_metrics := by
  intro s abd seed n r1 r2 h1 h2
  rw [h1, h2]

theorem simulate_run_deterministic_witness :
    (simulate_run (SimState.mk [] "" {} 0 [] []) [] 42 1).daily_metrics
      = (simulate_run (SimState.mk [] "" {} 0 [] []) [] 42 1).daily_metrics :=
  simulate_run_deterministic (SimState.mk [] "" {} 0 [] []) [] 42 1 _ _ rfl rfl

theorem runDays_take (actions_by_day : List (Nat × List Action)) (seed : Int) :
    ∀ (n m day : Nat) (state : SimState), n ≤ m →
      ((runDays actions_by_day seed day m state).2.1.take n)
        = (runDays actions_by_day seed day n state).2.1 := by
  intro n
  induction n with
  | zero => intro m day state _; simp [runDays]
  | succ k ih =>
    intro m day state hnm
    cases m with
    | zero => exact absurd hnm (by omega)
    | succ m' =>
      unfold runDays
      simp only [List.take_succ_cons]
      rw [ih m' (day + 1) _ (by omega)]

/-- C2: the first N daily metrics of an N-day run equal the first N of an
M-day run (N ≤ M), because the loop derives each day's RNG afresh as
`create_day_rng(seed, day)` — seeded with `seed·10⁶ + day` — independent
of prior days' draws. -/
theorem simulate_run_day_independence :
    (∀ (initial_state : SimState) (actions_by_day : List (Nat × List Action)) (seed : Int)
      (n m : Nat), n ≤ m →
        (simulate_run initial_state actions_by_day seed m).daily_metrics.take n
          = (simulate_run initial_state actions_by_day seed n).daily_metrics)
    ∧ (∀ (seed : Int) (day : Nat),
        create_day_rng seed day = SeededRNG.ofSeed (seed * 1000000 + day)) := by
  constructor
  · intro s abd seed n m hnm
    unfold simulate_run
    exact runDays_take abd seed n m 1 s hnm
  · intro seed day
    rfl

theorem simulate_run_day_independence_witness :
    (simulate_run (SimState.mk [] "" {} 0 [] []) [] 7 2).daily_metrics.take 1
      = (simulate_run (SimState.mk [] "" {} 0 [] []) [] 7 1).daily_metrics :=
  simulate_run_day_independence.1 (SimState.mk [] "" {} 0 [] []) [] 7 1 2 (by decide)

/-- Every record emitted by `run_auction` corresponds to exactly one
input entry: the multiset of (advertiser, keyword, ad, ad-rank) keys of
the emitted positions equals that of the entries. -/
theorem run_auction_keys_perm (entries : List AuctionEntry) (query : String)
    (mp : Nat) (mr : ℚ) (br : Option (List (String × ℚ))) (rng : Option SeededRNG) :
    ((run_auction entries query mp mr br rng).1.positions.map posKey).Perm
      (entries.map entryKey) := by
  by_cases he : entries.isEmpty = true
  · rw [List.isEmpty_iff] at he
    subst he
    simp [run_auction]
  · have he' : entries.isEmpty = false := by simpa using he
    simp only [run_auction, he', Bool.false_eq_true, if_false]
    by_cases helig : (entries.filter (fun e =>
        decide (mr ≤ e.ad_rank) && !budgetExcludedEntry br e)).isEmpty = true
    · rw [List.isEmpty_iff] at helig
      simp only [helig, List.isEmpty_nil, if_true]
      have hpart := (partition3_perm (fun e => decide (mr ≤ e.ad_rank))
        (fun e => budgetExcludedEntry br e) entries).map entryKey
      simp only [] at hpart
      rw [helig] at hpart
      simp only [List.append_nil, List.map_append] at hpart
      simpa [List.map_map, posKey, entryKey, lossPosition, Function.comp] using hpart
    · have helig' : (entries.filter (fun e =>
          decide (mr ≤ e.ad_rank) && !budgetExcludedEntry br e)).isEmpty = false := by
        simpa using helig
      simp only [helig', Bool.false_eq_true, if_false]
      set E := entries.filter (fun e =>
        decide (mr ≤ e.ad_rank) && !budgetExcludedEntry br e) with hE
      set sorted_eligible := E.mergeSort (fun a b => decide (b.ad_rank ≤ a.ad_rank)) with hsort
      set shown := sorted_eligible.take mp with hshown
      set not_shown := sorted_eligible.drop mp with hnot
      set allocated := (softmax_positions (shown.map AuctionEntry.ad_rank) (13/20) rng).1
        with halloc
      have hlenalloc : shown.length ≤ allocated.length := by
        rw [halloc, softmax_positions_length, List.length_map]
      have hshownkeys : ((shown.zip allocated).map
          (shownPosition mr (shown.zip allocated))).map posKey = shown.map entryKey := by
        rw [List.map_map]
        have hcomp : posKey ∘ shownPosition mr (shown.zip allocated)
            = entryKey ∘ Prod.fst := funext fun ep => rfl
        rw [hcomp, ← List.map_map, List.map_fst_zip shown allocated hlenalloc]
      have hlosskeysB : ∀ (l : List AuctionEntry) (r : String),
          (l.map (fun e => lossPosition e r)).map posKey = l.map entryKey := by
        intro l r
        rw [List.map_map]
        rfl
      simp only [List.map_append]
      rw [hshownkeys, hlosskeysB, hlosskeysB, hlosskeysB]
      have hsortperm : sorted_eligible.Perm E := List.mergeSort_perm E _
      have hsplit : shown ++ not_shown = sorted_eligible := List.take_append_drop mp _
      have hSN : (shown.map entryKey ++ not_shown.map entryKey).Perm (E.map entryKey) := by
        rw [← List.map_append, hsplit]
        exact hsortperm.map entryKey
      have hpart := (partition3_perm (fun e => decide (mr ≤ e.ad_rank))
        (fun e => budgetExcludedEntry br e) entries).map entryKey
      simp only [List.map_append] at hpart
      rw [List.append_assoc]
      exact (List.Perm.append_left _ hSN).trans hpart

/-- The auction winners carry exactly the positions `1..total_shown`. -/
theorem run_auction_won_positions (entries : List AuctionEntry) (query : String)
    (mp : Nat) (mr : ℚ) (br : Option (List (String × ℚ))) (rng : Option SeededRNG) :
    (((run_auction entries query mp mr br rng).1.positions.filter
        (fun p => p.won_auction)).map (fun p => p.position)).Perm
      (List.range' 1 (run_auction entries query mp mr br rng).1.total_shown) := by
  by_cases he : entries.isEmpty = true
  · rw [List.isEmpty_iff] at he
    subst he
    simp [run_auction]
  · have he' : entries.isEmpty = false := by simpa using he
    simp only [run_auction, he', Bool.false_eq_true, if_false]
    by_cases helig : (entries.filter (fun e =>
        decide (mr ≤ e.ad_rank) && !budgetExcludedEntry br e)).isEmpty = true
    · rw [List.isEmpty_iff] at helig
      simp only [helig, List.isEmpty_nil, if_true]
      simp [List.filter_append, List.filter_map, lossPosition, Function.comp]
    · have helig' : (entries.filter (fun e =>
          decide (mr ≤ e.ad_rank) && !budgetExcludedEntry br e)).isEmpty = false := by
        simpa using helig
      simp only [helig', Bool.false_eq_true, if_false]
      set E := entries.filter (fun e =>
        decide (mr ≤ e.ad_rank) && !budgetExcludedEntry br e) with hE
      set sorted_eligible := E.mergeSort (fun a b => decide (b.ad_rank ≤ a.ad_rank)) with hsort
      set shown := sorted_eligible.take mp with hshown
      set not_shown := sorted_eligible.drop mp with hnot
      set allocated := (softmax_positions (shown.map AuctionEntry.ad_rank) (13/20) rng).1
        with halloc
      have hlenalloc : allocated.length = shown.length := by
        rw [halloc, softmax_positions_length, List.length_map]
      have hwonloss : ∀ (l : List AuctionEntry) (r : String),
          (l.map (fun e => lossPosition e r)).filter (fun p => p.won_auction) = [] := by
        intro l r
        rw [List.filter_map]
        have : ((fun (p : AuctionPosition) => p.won_auction) ∘ fun e => lossPosition e r)
            = fun _ => false := funext fun e => rfl
        rw [this, List.filter_false, List.map_nil]
      have hwonshown : ((shown.zip allocated).map
            (shownPosition mr (shown.zip allocated))).filter (fun p => p.won_auction)
          = (shown.zip allocated).map (shownPosition mr (shown.zip allocated)) := by
        rw [List.filter_map]
        have : ((fun (p : AuctionPosition) => p.won_auction)
            ∘ shownPosition mr (shown.zip allocated)) = fun _ => true := funext fun ep => rfl
        rw [this, List.filter_true]
      simp only [List.filter_append, hwonloss, hwonshown, List.nil_append, List.append_nil]
      rw [List.map_map]
      have hcomp : ((fun (p : AuctionPosition) => p.position)
          ∘ shownPosition mr (shown.zip allocated)) = Prod.snd := funext fun ep => rfl
      rw [hcomp, List.map_snd_zip shown allocated (le_of_eq hlenalloc)]
      have := softmax_positions_perm (shown.map AuctionEntry.ad_rank) (13/20) rng
      rwa [List.length_map] at this

/-- C10: for every non-empty rank list, `softmax_positions` returns a
permutation of `{1..n}` (with any RNG, seeded or null); consequently
`run_auction` gives its winners the distinct positions
`1..total_shown`, and emits exactly one `AuctionPosition` per distinct
input entry (the multiset of identifying keys of the records equals
that of the entries, covering won, budget-excluded, rank-excluded and
unplaced records). -/
theorem auction_positions_spec :
    (∀ (ad_ranks : List ℚ) (tau : ℚ) (rng : Option SeededRNG), ad_ranks ≠ [] →
      ((softmax_positions ad_ranks tau rng).1).Perm (List.range' 1 ad_ranks.length))
    ∧ (∀ (entries : List AuctionEntry) (query : String) (mp : Nat) (mr : ℚ)
        (br : Option (List (String × ℚ))) (rng : Option SeededRNG),
        ((run_auction entries query mp mr br rng).1.positions.map posKey).Perm
          (entries.map entryKey)
        ∧ (((run_auction entries query mp mr br rng).1.positions.filter
            (fun p => p.won_auction)).map (fun p => p.position)).Perm
            (List.range' 1 (run_auction entries query mp mr br rng).1.total_shown)) :=
  ⟨fun ad_ranks tau rng _ => softmax_positions_perm ad_ranks tau rng,
   fun entries query mp mr br rng =>
    ⟨run_auction_keys_perm entries query mp mr br rng,
     run_auction_won_positions entries query mp mr br rng⟩⟩

theorem auction_positions_spec_witness :
    ((softmax_positions [5, 3] (13/20) none).1).Perm (List.range' 1 ([5, 3] : List ℚ).length) :=
  auction_positions_spec.1 [5, 3] (13/20) none (by simp)

/-- A position record found for an advertiser implies an entry of that
advertiser was in the auction input. -/
theorem get_user_position_entry (entries : List AuctionEntry) (query : String)
    (mp : Nat) (mr : ℚ) (br : Option (List (String × ℚ))) (rng : Option SeededRNG)
    (uid : String) (p : AuctionPosition)
    (h : (run_auction entries query mp mr br rng).1.get_user_position uid = some p) :
    ∃ e ∈ entries, e.advertiser_id = uid := by
  unfold AuctionResult.get_user_position at h
  have hmem : p ∈ (run_auction entries query mp mr br rng).1.positions :=
    List.mem_of_find?_eq_some h
  have hpid : p.advertiser_id = uid := by
    have := List.find?_some h
    simpa using this
  have hkey : posKey p ∈ (run_auction entries query mp mr br rng).1.positions.map posKey :=
    List.mem_map_of_mem posKey hmem
  have hkey2 : posKey p ∈ entries.map entryKey :=
    (run_auction_keys_perm entries query mp mr br rng).mem_iff.1 hkey
  obtain ⟨e, hemem, hekey⟩ := List.mem_map.1 hkey2
  refine ⟨e, hemem, ?_⟩
  have : e.advertiser_id = p.advertiser_id := congrArg (fun t => t.1) hekey
  rw [this, hpid]

/-- Each query preserves `won + lost_budget + lost_rank ≤ eligible`. -/
theorem processQuery_shareInv (cfg : ScenarioConfig) (uid : String) (segment : Segment)
    (fatigue : ℚ) (acc : QueryAcc) (query : SearchQuery)
    (h : acc.t.won_auctions + acc.t.lost_budget + acc.t.lost_rank ≤ acc.t.eligible_auctions) :
    (processQuery cfg uid segment fatigue acc query).t.won_auctions
      + (processQuery cfg uid segment fatigue acc query).t.lost_budget
      + (processQuery cfg uid segment fatigue acc query).t.lost_rank
      ≤ (processQuery cfg uid segment fatigue acc query).t.eligible_auctions := by
  unfold processQuery
  by_cases h1 : (buildEntries acc.state.advertisers query.query).isEmpty = true
  · simp only [h1, if_true]
    exact h
  · have h1' : (buildEntries acc.state.advertisers query.query).isEmpty = false := by
      simpa using h1
    simp only [h1', Bool.false_eq_true, if_false]
    rcases hup : (run_auction (buildEntries acc.state.advertisers query.query) query.query 8
        (1/10) (some (buildBudgetRemaining acc.state.advertisers))
        (some acc.rng)).1.get_user_position uid with _ | upos
    · simp only [hup]
      split <;> simp <;> omega
    · simp only [hup]
      have hentry : ∃ e ∈ buildEntries acc.state.advertisers query.query,
          e.advertiser_id = uid := get_user_position_entry _ _ _ _ _ _ _ _ hup
      have hsome : ((buildEntries acc.state.advertisers query.query).find?
          (fun e => e.advertiser_id == uid)).isSome = true := by
        rw [List.find?_isSome]
        obtain ⟨e, hmem, heq⟩ := hentry
        exact ⟨e, hmem, by simp [heq]⟩
      simp only [hsome, if_true]
      split
      · split
        · split
          · simp; omega
          · split
            · split
              · simp; omega
              · simp; omega
            · simp; omega
        · simp; omega
      · split
        · simp; omega
        · simp; omega

/-- Each query preserves the click/conversion/fraud funnel bounds. -/
theorem processQuery_funnelInv (cfg : ScenarioConfig) (uid : String) (segment : Segment)
    (fatigue : ℚ) (acc : QueryAcc) (query : SearchQuery)
    (h : acc.t.total_clicks ≤ acc.t.total_impressions
      ∧ acc.t.total_conversions ≤ acc.t.total_clicks
      ∧ acc.t.fraud_clicks ≤ acc.t.total_clicks) :
    (processQuery cfg uid segment fatigue acc query).t.total_clicks
      ≤ (processQuery cfg uid segment fatigue acc query).t.total_impressions
    ∧ (processQuery cfg uid segment fatigue acc query).t.total_conversions
      ≤ (processQuery cfg uid segment fatigue acc query).t.total_clicks
    ∧ (processQuery cfg uid segment fatigue acc query).t.fraud_clicks
      ≤ (processQuery cfg uid segment fatigue acc query).t.total_clicks := by
  obtain ⟨hc, hv, hf⟩ := h
  unfold processQuery
  by_cases h1 : (buildEntries acc.state.advertisers query.query).isEmpty = true
  · simp only [h1, if_true]
    exact ⟨hc, hv, hf⟩
  · have h1' : (buildEntries acc.state.advertisers query.query).isEmpty = false := by
      simpa using h1
    simp only [h1', Bool.false_eq_true, if_false]
    rcases hup : (run_auction (buildEntries acc.state.advertisers query.query) query.query 8
        (1/10) (some (buildBudgetRemaining acc.state.advertisers))
        (some acc.rng)).1.get_user_position uid with _ | upos
    · simp only [hup]
      exact ⟨hc, hv, hf⟩
    · simp only [hup]
      split
      · split
        · split
          · refine ⟨?_, ?_, ?_⟩ <;> simp <;> omega
          · split
            · split
              · refine ⟨?_, ?_, ?_⟩ <;> simp <;> omega
              · refine ⟨?_, ?_, ?_⟩ <;> simp <;> omega
            · refine ⟨?_, ?_, ?_⟩ <;> simp <;> omega
        · refine ⟨?_, ?_, ?_⟩ <;> simp <;> omega
      · split
        · refine ⟨?_, ?_, ?_⟩ <;> simp <;> omega
        · refine ⟨?_, ?_, ?_⟩ <;> simp <;> omega

theorem foldl_processQuery_shareInv (cfg : ScenarioConfig) (uid : String)
    (segment : Segment) (fatigue : ℚ) :
    ∀ (queries : List SearchQuery) (acc : QueryAcc),
      acc.t.won_auctions + acc.t.lost_budget + acc.t.lost_rank ≤ acc.t.eligible_auctions →
      (queries.foldl (processQuery cfg uid segment fatigue) acc).t.won_auctions
        + (queries.foldl (processQuery cfg uid segment fatigue) acc).t.lost_budget
        + (queries.foldl (processQuery cfg uid segment fatigue) acc).t.lost_rank
        ≤ (queries.foldl (processQuery cfg uid segment fatigue) acc).t.eligible_auctions := by
  intro queries
  induction queries with
  | nil => intro acc h; exact h
  | cons q qs ih =>
    intro acc h
    rw [List.foldl_cons]
    exact ih _ (processQuery_shareInv cfg uid segment fatigue acc q h)

theorem foldl_processQuery_funnelInv (cfg : ScenarioConfig) (uid : String)
    (segment : Segment) (fatigue : ℚ) :
    ∀ (queries : List SearchQuery) (acc : QueryAcc),
      (acc.t.total_clicks ≤ acc.t.total_impressions
        ∧ acc.t.total_conversions ≤ acc.t.total_clicks
        ∧ acc.t.fraud_clicks ≤ acc.t.total_clicks) →
      ((queries.foldl (processQuery cfg uid segment fatigue) acc).t.total_clicks
        ≤ (queries.foldl (processQuery cfg uid segment fatigue) acc).t.total_impressions
      ∧ (queries.foldl (processQuery cfg uid segment fatigue) acc).t.total_conversions
        ≤ (queries.foldl (processQuery cfg uid segment fatigue) acc).t.total_clicks
      ∧ (queries.foldl (processQuery cfg uid segment fatigue) acc).t.fraud_clicks
        ≤ (queries.foldl (processQuery cfg uid segment fatigue) acc).t.total_clicks) := by
  intro queries
  induction queries with
  | nil => intro acc h; exact h
  | cons q qs ih =>
    intro acc h
    rw [List.foldl_cons]
    exact ih _ (processQuery_funnelInv cfg uid segment fatigue acc q h)

theorem processSegment_shareInv (cfg : ScenarioConfig) (uid : String)
    (sm em : ℚ) (acc : SimState × SeededRNG × DayTotals) (seg : Segment)
    (h : acc.2.2.won_auctions + acc.2.2.lost_budget + acc.2.2.lost_rank
      ≤ acc.2.2.eligible_auctions) :
    (processSegment cfg uid sm em acc seg).2.2.won_auctions
      + (processSegment cfg uid sm em acc seg).2.2.lost_budget
      + (processSegment cfg uid sm em acc seg).2.2.lost_rank
      ≤ (processSegment cfg uid sm em acc seg).2.2.eligible_auctions := by
  unfold processSegment
  exact foldl_processQuery_shareInv cfg uid seg _ _ _ h

theorem processSegment_funnelInv (cfg : ScenarioConfig) (uid : String)
    (sm em : ℚ) (acc : SimState × SeededRNG × DayTotals) (seg : Segment)
    (h : acc.2.2.total_clicks ≤ acc.2.2.total_impressions
      ∧ acc.2.2.total_conversions ≤ acc.2.2.total_clicks
      ∧ acc.2.2.fraud_clicks ≤ acc.2.2.total_clicks) :
    ((processSegment cfg uid sm em acc seg).2.2.total_clicks
      ≤ (processSegment cfg uid sm em acc seg).2.2.total_impressions
    ∧ (processSegment cfg uid sm em acc seg).2.2.total_conversions
      ≤ (processSegment cfg uid sm em acc seg).2.2.total_clicks
    ∧ (processSegment cfg uid sm em acc seg).2.2.fraud_clicks
      ≤ (processSegment cfg uid sm em acc seg).2.2.total_clicks) := by
  unfold processSegment
  exact foldl_processQuery_funnelInv cfg uid seg _ _ _ h

theorem foldl_processSegment_shareInv (cfg : ScenarioConfig) (uid : String) (sm em : ℚ) :
    ∀ (segs : List Segment) (acc : SimState × SeededRNG × DayTotals),
      acc.2.2.won_auctions + acc.2.2.lost_budget + acc.2.2.lost_rank
        ≤ acc.2.2.eligible_auctions →
      (segs.foldl (processSegment cfg uid sm em) acc).2.2.won_auctions
        + (segs.foldl (processSegment cfg uid sm em) acc).2.2.lost_budget
        + (segs.foldl (processSegment cfg uid sm em) acc).2.2.lost_rank
        ≤ (segs.foldl (processSegment cfg uid sm em) acc).2.2.eligible_auctions := by
  intro segs
  induction segs with
  | nil => intro acc h; exact h
  | cons s ss ih =>
    intro acc h
    rw [List.foldl_cons]
    exact ih _ (processSegment_shareInv cfg uid sm em acc s h)

theorem foldl_processSegment_funnelInv (cfg : ScenarioConfig) (uid : String) (sm em : ℚ) :
    ∀ (segs : List Segment) (acc : SimState × SeededRNG × DayTotals),
      (acc.2.2.total_clicks ≤ acc.2.2.total_impressions
        ∧ acc.2.2.total_conversions ≤ acc.2.2.total_clicks
        ∧ acc.2.2.fraud_clicks ≤ acc.2.2.total_clicks) →
      ((segs.foldl (processSegment cfg uid sm em) acc).2.2.total_clicks
        ≤ (segs.foldl (processSegment cfg uid sm em) acc).2.2.total_impressions
      ∧ (segs.foldl (processSegment cfg uid sm em) acc).2.2.total_conversions
        ≤ (segs.foldl (processSegment cfg uid sm em) acc).2.2.total_clicks
      ∧ (segs.foldl (processSegment cfg uid sm em) acc).2.2.fraud_clicks
        ≤ (segs.foldl (processSegment cfg uid sm em) acc).2.2.total_clicks) := by
  intro segs
  induction segs with
  | nil => intro acc h; exact h
  | cons s ss ih =>
    intro acc h
    rw [List.foldl_cons]
    exact ih _ (processSegment_funnelInv cfg uid sm em acc s h)

/-- C7: the per-day share metrics are each in [0, 1] and sum to at
most 1. -/
theorem simulate_day_share_bounds :
    ∀ (state : SimState) (actions : List Action) (day : Nat) (rng : SeededRNG),
      0 ≤ (simulate_day state actions day rng).2.1.impression_share
      ∧ (simulate_day state actions day rng).2.1.impression_share ≤ 1
      ∧ 0 ≤ (simulate_day state actions day rng).2.1.lost_is_budget
      ∧ (simulate_day state actions day rng).2.1.lost_is_budget ≤ 1
      ∧ 0 ≤ (simulate_day state actions day rng).2.1.lost_is_rank
      ∧ (simulate_day state actions day rng).2.1.lost_is_rank ≤ 1
      ∧ (simulate_day state actions day rng).2.1.impression_share
          + (simulate_day state actions day rng).2.1.lost_is_budget
          + (simulate_day state actions day rng).2.1.lost_is_rank ≤ 1 := by
  intro state actions day rng
  unfold simulate_day
  rw [apply_actions_eq]
  cases hfind : ({ state with current_day := day } : SimState).get_user_advertiser with
  | none => simp [hfind]
  | some user_adv =>
    simp only [hfind]
    set t := (generate_segments.foldl
      (processSegment state.scenario_config user_adv.id
        (get_seasonality_multiplier day state.scenario_config)
        (get_event_multiplier day state.scenario_config))
      ({ state with
          current_day := day
          advertisers := resetDailySpend state.advertisers }, rng,
        ({} : DayTotals))).2.2 with ht
    have hinv : t.won_auctions + t.lost_budget + t.lost_rank ≤ t.eligible_auctions := by
      rw [ht]
      exact foldl_processSegment_shareInv _ _ _ _ generate_segments _ (by simp)
    by_cases he : 0 < t.eligible_auctions
    · have hpos : (0:ℚ) < t.eligible_auctions := by exact_mod_cast he
      have h1 : (0:ℚ) ≤ (t.won_auctions : ℚ) / t.eligible_auctions :=
        div_nonneg (Nat.cast_nonneg _) hpos.le
      have h2 : (t.won_auctions : ℚ) / t.eligible_auctions ≤ 1 := by
        rw [div_le_one hpos]
        exact_mod_cast Nat.le_trans (by omega) hinv
      have h3 : (0:ℚ) ≤ (t.lost_budget : ℚ) / t.eligible_auctions :=
        div_nonneg (Nat.cast_nonneg _) hpos.le
      have h4 : (t.lost_budget : ℚ) / t.eligible_auctions ≤ 1 := by
        rw [div_le_one hpos]
        exact_mod_cast Nat.le_trans (by omega) hinv
      have h5 : (0:ℚ) ≤ (t.lost_rank : ℚ) / t.eligible_auctions :=
        div_nonneg (Nat.cast_nonneg _) hpos.le
      have h6 : (t.lost_rank : ℚ) / t.eligible_auctions ≤ 1 := by
        rw [div_le_one hpos]
        exact_mod_cast Nat.le_trans (by omega) hinv
      have h7 : (t.won_auctions : ℚ) / t.eligible_auctions
          + (t.lost_budget : ℚ) / t.eligible_auctions
          + (t.lost_rank : ℚ) / t.eligible_auctions ≤ 1 := by
        rw [div_add_div_same, div_add_div_same, div_le_one hpos]
        exact_mod_cast hinv
      simp only [he, if_true]
      exact ⟨h1, h2, h3, h4, h5, h6, h7⟩
    · simp [he]

/-- C8: per-day funnel bounds: `clicks ≤ impressions`,
`conversions ≤ clicks`, `fraud_clicks ≤ clicks`. -/
theorem simulate_day_funnel_bounds :
    ∀ (state : SimState) (actions : List Action) (day : Nat) (rng : SeededRNG),
      (simulate_day state actions day rng).2.1.clicks
        ≤ (simulate_day state actions day rng).2.1.impressions
      ∧ (simulate_day state actions day rng).2.1.conversions
        ≤ (simulate_day state actions day rng).2.1.clicks
      ∧ (simulate_day state actions day rng).2.1.fraud_clicks
        ≤ (simulate_day state actions day rng).2.1.clicks := by
  intro state actions day rng
  unfold simulate_day
  rw [apply_actions_eq]
  cases hfind : ({ state with current_day := day } : SimState).get_user_advertiser with
  | none => simp [hfind]
  | some user_adv =>
    simp only [hfind]
    set t := (generate_segments.foldl
      (processSegment state.scenario_config user_adv.id
        (get_seasonality_multiplier day state.scenario_config)
        (get_event_multiplier day state.scenario_config))
      ({ state with
          current_day := day
          advertisers := resetDailySpend state.advertisers }, rng,
        ({} : DayTotals))).2.2 with ht
    have hinv : t.total_clicks ≤ t.total_impressions
        ∧ t.total_conversions ≤ t.total_clicks
        ∧ t.fraud_clicks ≤ t.total_clicks := by
      rw [ht]
      exact foldl_processSegment_funnelInv _ _ _ _ generate_segments _ (by simp)
    refine ⟨?_, ?_, ?_⟩
    · exact_mod_cast hinv.1
    · exact_mod_cast hinv.2.1
    · exact_mod_cast hinv.2.2

end Adsim
